import Mathlib

/-!
Shallow embedding of the Astro NFT marketplace contract (src/src/lib.rs).

Conventions of the embedding:
* `AccountId` and `TokenId` are strings, as in the source.
* `u128` values are `Nat`; where the Rust code performs arithmetic that can
  wrap, the wrap is explicit (`wrapMul`, `wrapSub`, both modulo `2 ^ 128`,
  matching release-profile two's-complement wrapping of `u128`).
* NEAR `Promise::transfer` calls are modelled as an emitted list of
  `(receiver, amount)` pairs, in the order the promises are created.
* `UnorderedMap` / `LookupMap` state is modelled as association lists keyed
  by the same composite string keys the source builds; `UnorderedSet` as a
  duplicate-free-by-construction list.
* A Rust `assert!`/`expect` abort is `Except.error`; a completed call is
  `Except.ok` carrying the new contract state and the emitted transfers.
* The asynchronous `nft_transfer_payout` result is modelled as
  `Option Payload`: `none` for a failed promise, `some` for a successful one
  whose body either parses as a bare payout map, as the `Payout` envelope,
  or as neither (`garbage`).
-/

namespace AstroMarket

abbrev AccountId := String
abbrev TokenId := String

/-- A single native-currency transfer `(receiver, amount)` created with
`Promise::new(receiver).transfer(amount)`. -/
abbrev Transfer := AccountId × Nat

/-- Modulus of the `u128` machine type. -/
def U128LIMIT : Nat := 2 ^ 128

/-- `u128` multiplication with explicit wrap. -/
def wrapMul (a b : Nat) : Nat := a * b % U128LIMIT

/-- `u128` subtraction with explicit wrap (both arguments assumed below
`2 ^ 128`, as all values in the contract are). -/
def wrapSub (a b : Nat) : Nat := if b ≤ a then a - b else a + U128LIMIT - b

/-- `DELIMETER` from the source (sic). -/
def DELIMETER : String := "||"

/-- The native-currency token id, `"near"`. -/
def NEAR : AccountId := "near"

/-- `MAX_PRICE` from the source: `1_000_000_000 * 10u128.pow(24)`. -/
def MAX_PRICE : Nat := 1000000000 * 10 ^ 24

/-- `STORAGE_ADD_MARKET_DATA` from the source. -/
def STORAGE_ADD_MARKET_DATA : Nat := 8590000000000000000000

/-- `contract_and_token_id = format!("{}{}{}", nft_contract_id, DELIMETER, token_id)`. -/
def contractTokenKey (nft_contract_id : AccountId) (token_id : TokenId) : String :=
  nft_contract_id ++ DELIMETER ++ token_id

/-- `make_triple` from the source. -/
def make_triple (nft_contract_id buyer_id : AccountId) (token : TokenId) : String :=
  nft_contract_id ++ DELIMETER ++ buyer_id ++ DELIMETER ++ token

/-- A bid: `(bidder_id, price)`. -/
structure Bid where
  bidder_id : AccountId
  price : Nat
deriving DecidableEq

/-- `MarketData` from the source. -/
structure MarketData where
  owner_id : AccountId
  approval_id : Nat
  nft_contract_id : AccountId
  token_id : TokenId
  ft_token_id : AccountId
  price : Nat
  bids : Option (List Bid)
  started_at : Option Nat
  ended_at : Option Nat
  is_auction : Option Bool
deriving DecidableEq

/-- `OfferData` from the source. -/
structure OfferData where
  buyer_id : AccountId
  nft_contract_id : AccountId
  token_id : TokenId
  ft_token_id : AccountId
  price : Nat
deriving DecidableEq

/-- The persistent contract state. -/
structure Contract where
  owner_id : AccountId
  treasury_id : AccountId
  market : List (String × MarketData)
  approved_ft_token_ids : List AccountId
  approved_nft_contract_ids : List AccountId
  storage_deposits : List (AccountId × Nat)
  by_owner_id : List (AccountId × List String)
  offers : List (String × OfferData)
  transaction_fee : Nat
deriving DecidableEq

/-- The snapshot handed from `internal_process_purchase` across the
asynchronous boundary into `resolve_purchase`. -/
structure PendingPurchase where
  buyer_id : AccountId
  market_data : MarketData
  price : Nat
deriving DecidableEq

/-- The snapshot handed from `internal_accept_offer` into `resolve_offer`. -/
structure PendingOffer where
  seller_id : AccountId
  offer_data : OfferData
  token_id : TokenId
deriving DecidableEq

/-! ### Association-list state helpers (UnorderedMap / LookupMap / UnorderedSet) -/

/-- Key lookup in an association list. -/
def lookupA {α : Type} : List (String × α) → String → Option α
  | [], _ => none
  | p :: rest, k => if p.1 = k then some p.2 else lookupA rest k

/-- Key insertion: replace the first binding of the key, or append. -/
def insertA {α : Type} : List (String × α) → String → α → List (String × α)
  | [], k, v => [(k, v)]
  | p :: rest, k, v => if p.1 = k then (k, v) :: rest else p :: insertA rest k v

/-- Key removal (removes every binding of the key). -/
def removeA {α : Type} : List (String × α) → String → List (String × α)
  | [], _ => []
  | p :: rest, k => if p.1 = k then removeA rest k else p :: removeA rest k

/-- Set insertion for `UnorderedSet` modelled as a list. -/
def setInsert (s : List String) (k : String) : List String :=
  if k ∈ s then s else s ++ [k]

/-- Set removal. -/
def setRemove (s : List String) (k : String) : List String :=
  s.filter (fun x => x ≠ k)

/-- Remove `key` from `owner`'s reverse-index set, dropping the whole entry
once the set is empty (the shared tail of `internal_delete_market_data` and
`internal_delete_offer`). -/
def removeFromOwnerSet (by_owner : List (AccountId × List String))
    (owner : AccountId) (key : String) : List (AccountId × List String) :=
  match lookupA by_owner owner with
  | none => by_owner
  | some s =>
    let s2 := setRemove s key
    if s2 = [] then removeA by_owner owner else insertA by_owner owner s2

/-- Add `key` to `owner`'s reverse-index set, creating the entry if absent. -/
def addToOwnerSet (by_owner : List (AccountId × List String))
    (owner : AccountId) (key : String) : List (AccountId × List String) :=
  let s := (lookupA by_owner owner).getD []
  insertA by_owner owner (setInsert s key)

/-- `get_supply_by_owner_id`. -/
def get_supply_by_owner_id (c : Contract) (account_id : AccountId) : Nat :=
  ((lookupA c.by_owner_id account_id).map List.length).getD 0

/-! ### Payout parsing and validation -/

/-- The body returned by a successful `nft_transfer_payout` promise: it
either deserializes as a bare `PayoutHashMap`, as the `Payout` envelope, or
as neither. -/
inductive Payload where
  | bare (m : List (AccountId × Nat))
  | wrapped (m : List (AccountId × Nat))
  | garbage
deriving DecidableEq

/-- The `remainder.checked_sub(value)?` fold over the payout amounts. -/
def checkedSubFold : Nat → List Nat → Option Nat
  | r, [] => some r
  | r, a :: rest => if a ≤ r then checkedSubFold (r - a) rest else none

/-- Validation applied to a parsed payout map: every amount is subtracted
from `price` by checked subtraction, and the final remainder must be at
most 100 minimal units. -/
def validatePayout (price : Nat) (m : List (AccountId × Nat)) :
    Option (List (AccountId × Nat)) :=
  match checkedSubFold price (m.map (fun p => p.2)) with
  | none => none
  | some remainder => if remainder ≤ 100 then some m else none

/-- `payout_option` of `resolve_purchase` / `resolve_offer`: `none` both for
a failed promise and for a successful promise whose body is unparseable or
fails validation. -/
def payoutOption (price : Nat) (result : Option Payload) :
    Option (List (AccountId × Nat)) :=
  match result with
  | none => none
  | some (.bare m) => validatePayout price m
  | some (.wrapped m) => validatePayout price m
  | some .garbage => none

/-- The payout loop of the valid-payout branch: each recipient is paid its
listed amount, except that the recipient equal to `owner` is paid its amount
minus the treasury fee, with the fee forwarded to the treasury when it is
non-zero. -/
def payoutTransfers (owner treasury : AccountId) (fee : Nat) :
    List (AccountId × Nat) → List Transfer
  | [] => []
  | (receiver_id, amount) :: rest =>
    if receiver_id = owner then
      (receiver_id, wrapSub amount fee) ::
        ((if fee ≠ 0 then [(treasury, fee)] else []) ++
          payoutTransfers owner treasury fee rest)
    else
      (receiver_id, amount) :: payoutTransfers owner treasury fee rest

/-! ### Settlement resolution -/

/-- `resolve_purchase`. Returns the transfers it creates and the `U128` it
returns. `result = none` means the `nft_transfer_payout` promise failed. -/
def resolve_purchase (transaction_fee : Nat) (treasury_id buyer_id : AccountId)
    (market_data : MarketData) (price : Nat) (result : Option Payload) :
    List Transfer × Nat :=
  match payoutOption price result with
  | some payout =>
    if market_data.ft_token_id = NEAR then
      let treasury_fee := wrapMul price transaction_fee / 10000
      (payoutTransfers market_data.owner_id treasury_id treasury_fee payout, price)
    else ([], 0)
  | none =>
    match result with
    | none =>
      (if market_data.ft_token_id = NEAR then [(buyer_id, market_data.price)] else [],
        price)
    | some _ =>
      if market_data.ft_token_id = NEAR then
        let treasury_fee := wrapMul price transaction_fee / 10000
        ((market_data.owner_id, wrapSub price treasury_fee) ::
          (if 0 < treasury_fee then [(treasury_id, treasury_fee)] else []), price)
      else ([], price)

/-- `resolve_offer`. Mirrors `resolve_purchase` with the offer snapshot; the
seller comparison is against the `seller_id` argument. -/
def resolve_offer (transaction_fee : Nat) (treasury_id seller_id : AccountId)
    (offer_data : OfferData) (result : Option Payload) :
    List Transfer × Nat :=
  match payoutOption offer_data.price result with
  | some payout =>
    if offer_data.ft_token_id = NEAR then
      let treasury_fee := wrapMul offer_data.price transaction_fee / 10000
      (payoutTransfers seller_id treasury_id treasury_fee payout, offer_data.price)
    else ([], 0)
  | none =>
    match result with
    | none =>
      (if offer_data.ft_token_id = NEAR then
          [(offer_data.buyer_id, offer_data.price)]
        else [], offer_data.price)
    | some _ =>
      if offer_data.ft_token_id = NEAR then
        let treasury_fee := wrapMul offer_data.price transaction_fee / 10000
        ((seller_id, wrapSub offer_data.price treasury_fee) ::
          (if 0 < treasury_fee then [(treasury_id, treasury_fee)] else []),
          offer_data.price)
      else ([], offer_data.price)

/-- Evaluate an optional-field guard: `true` when the option is empty,
otherwise the check on its content (the `if x.is_some { assert!(...) }`
pattern of the source). -/
def optCheck {α : Type} (o : Option α) (p : α → Bool) : Bool :=
  match o with
  | some x => p x
  | none => true

/-! ### Contract construction and administration -/

/-- `new`: initial contract state (the fee starts at 200 basis points and
`"near"` is always an approved fungible token). -/
def Contract.new (owner_id treasury_id : AccountId)
    (approved_ft approved_nft : List AccountId) : Contract :=
  { owner_id := owner_id
    treasury_id := treasury_id
    market := []
    approved_ft_token_ids := approved_ft.foldl setInsert (setInsert [] NEAR)
    approved_nft_contract_ids := approved_nft.foldl setInsert []
    storage_deposits := []
    by_owner_id := []
    offers := []
    transaction_fee := 200 }

/-- `set_treasury` (one-yocto and owner gated). -/
def set_treasury (c : Contract) (treasury_id : AccountId)
    (predecessor : AccountId) (attached_deposit : Nat) : Except String Contract :=
  if attached_deposit = 1 then
    if predecessor = c.owner_id then
      .ok { c with treasury_id := treasury_id }
    else .error "Error: Owner only"
  else .error "Requires attached deposit of exactly 1 yoctoNEAR"

/-- `set_transaction_fee` (one-yocto and owner gated, fee below 10000). -/
def set_transaction_fee (c : Contract) (next_fee : Nat)
    (predecessor : AccountId) (attached_deposit : Nat) : Except String Contract :=
  if attached_deposit = 1 then
    if predecessor = c.owner_id then
      if next_fee < 10000 then
        .ok { c with transaction_fee := next_fee }
      else .error "Error: fee is higher than 10_000"
    else .error "Error: Owner only"
  else .error "Requires attached deposit of exactly 1 yoctoNEAR"

/-- `transfer_ownership`. -/
def transfer_ownership (c : Contract) (owner_id : AccountId)
    (predecessor : AccountId) (attached_deposit : Nat) : Except String Contract :=
  if attached_deposit = 1 then
    if predecessor = c.owner_id then
      .ok { c with owner_id := owner_id }
    else .error "Error: Owner only"
  else .error "Requires attached deposit of exactly 1 yoctoNEAR"

/-- `add_approved_nft_contract_ids`. -/
def add_approved_nft_contract_ids (c : Contract) (ids : List AccountId)
    (predecessor : AccountId) (attached_deposit : Nat) : Except String Contract :=
  if attached_deposit = 1 then
    if predecessor = c.owner_id then
      .ok { c with approved_nft_contract_ids := ids.foldl setInsert c.approved_nft_contract_ids }
    else .error "Error: Owner only"
  else .error "Requires attached deposit of exactly 1 yoctoNEAR"

/-- `storage_deposit`. -/
def storage_deposit (c : Contract) (account_id : Option AccountId)
    (predecessor : AccountId) (attached_deposit : Nat) : Except String Contract :=
  let storage_account_id := account_id.getD predecessor
  if STORAGE_ADD_MARKET_DATA ≤ attached_deposit then
    let balance := (lookupA c.storage_deposits storage_account_id).getD 0 + attached_deposit
    .ok { c with storage_deposits := insertA c.storage_deposits storage_account_id balance }
  else .error "Requires minimum deposit"

/-- `storage_withdraw` (the subtraction of the still-required amount from the
balance is the source's unguarded `u128` subtraction, wrap made explicit). -/
def storage_withdraw (c : Contract) (predecessor : AccountId)
    (attached_deposit : Nat) : Except String (Contract × List Transfer) :=
  if attached_deposit = 1 then
    let amount0 := (lookupA c.storage_deposits predecessor).getD 0
    let c1 := { c with storage_deposits := removeA c.storage_deposits predecessor }
    let len := ((lookupA c1.by_owner_id predecessor).map List.length).getD 0
    let diff := len * STORAGE_ADD_MARKET_DATA
    let amount := wrapSub amount0 diff
    let transfers := if 0 < amount then [(predecessor, amount)] else []
    let c2 :=
      if 0 < diff then
        { c1 with storage_deposits := insertA c1.storage_deposits predecessor diff }
      else c1
    .ok (c2, transfers)
  else .error "Requires attached deposit of exactly 1 yoctoNEAR"

/-! ### Listing store -/

/-- `internal_add_market_data` (the listing-creation core, reached from the
NFT-approval callback). The bid list is initialized to an empty list exactly
when `is_auction` is `some true`. -/
def internal_add_market_data (c : Contract) (owner_id : AccountId)
    (approval_id : Nat) (nft_contract_id : AccountId) (token_id : TokenId)
    (ft_token_id : AccountId) (price : Nat)
    (started_at ended_at : Option Nat) (is_auction : Option Bool)
    (current_time : Nat) : Except String Contract :=
  let contract_and_token_id := contractTokenKey nft_contract_id token_id
  let bids : Option (List Bid) :=
    match is_auction with
    | some u => if u then some [] else none
    | none => none
  if optCheck started_at (fun s =>
      decide (current_time ≤ s) &&
        optCheck ended_at (fun e => decide (s < e))) then
    if optCheck ended_at (fun e => decide (current_time ≤ e)) then
      if price < MAX_PRICE then
        let md : MarketData :=
          { owner_id := owner_id
            approval_id := approval_id
            nft_contract_id := nft_contract_id
            token_id := token_id
            ft_token_id := ft_token_id
            price := price
            bids := bids
            started_at := started_at
            ended_at := ended_at
            is_auction := is_auction }
        .ok { c with
          market := insertA c.market contract_and_token_id md
          by_owner_id := addToOwnerSet c.by_owner_id owner_id contract_and_token_id }
      else .error "Error: price higher than MAX_PRICE"
    else .error "assertion failed: ended_at in the past"
  else .error "assertion failed: started_at invalid"

/-- `internal_delete_market_data`: removes the listing, refunds every
outstanding bid, and fixes the reverse index. Returns the removed snapshot. -/
def internal_delete_market_data (c : Contract) (nft_contract_id : AccountId)
    (token_id : TokenId) : Contract × List Transfer × Option MarketData :=
  let contract_and_token_id := contractTokenKey nft_contract_id token_id
  match lookupA c.market contract_and_token_id with
  | none => (c, [], none)
  | some market_data =>
    let refunds := (market_data.bids.getD []).map (fun b => (b.bidder_id, b.price))
    let c1 := { c with
      market := removeA c.market contract_and_token_id
      by_owner_id :=
        removeFromOwnerSet c.by_owner_id market_data.owner_id contract_and_token_id }
    (c1, refunds, some market_data)

/-- `update_market_data`. -/
def update_market_data (c : Contract) (nft_contract_id : AccountId)
    (token_id : TokenId) (ft_token_id : AccountId) (price : Nat)
    (predecessor : AccountId) (attached_deposit : Nat) : Except String Contract :=
  if attached_deposit = 1 then
    let contract_and_token_id := contractTokenKey nft_contract_id token_id
    match lookupA c.market contract_and_token_id with
    | none => .error "Error: Token id does not exist"
    | some market_data =>
      if market_data.owner_id = predecessor then
        if ft_token_id = market_data.ft_token_id then
          if price < MAX_PRICE then
            let md2 := { market_data with price := price }
            .ok { c with market := insertA c.market contract_and_token_id md2 }
          else .error "Error: price higher than MAX_PRICE"
        else .error "Error: ft_token_id differs"
      else .error "Error: Seller only"
  else .error "Requires attached deposit of exactly 1 yoctoNEAR"

/-- `delete_market_data` (public; seller or contract owner). -/
def delete_market_data (c : Contract) (nft_contract_id : AccountId)
    (token_id : TokenId) (predecessor : AccountId) (attached_deposit : Nat) :
    Except String (Contract × List Transfer) :=
  if attached_deposit = 1 then
    let contract_and_token_id := contractTokenKey nft_contract_id token_id
    match lookupA c.market contract_and_token_id with
    | none => .error "Error: Market data does not exist"
    | some market_data =>
      if predecessor = market_data.owner_id ∨ predecessor = c.owner_id then
        let r := internal_delete_market_data c nft_contract_id token_id
        .ok (r.1, r.2.1)
      else .error "Error: Seller or owner only"
  else .error "Requires attached deposit of exactly 1 yoctoNEAR"

/-! ### Purchase path -/

/-- `internal_process_purchase`: deletes the listing (refunding any bids it
still carries) and schedules the asynchronous transfer, carrying the removed
snapshot and the winning price across the boundary. -/
def internal_process_purchase (c : Contract) (nft_contract_id : AccountId)
    (token_id : TokenId) (buyer_id : AccountId) (price : Nat) :
    Except String (Contract × List Transfer × PendingPurchase) :=
  let r := internal_delete_market_data c nft_contract_id token_id
  match r.2.2 with
  | none => .error "Error: Sale does not exist"
  | some market_data =>
    .ok (r.1, r.2.1,
      { buyer_id := buyer_id, market_data := market_data, price := price })

/-- `buy`. -/
def buy (c : Contract) (nft_contract_id : AccountId) (token_id : TokenId)
    (ft_token_id : Option AccountId) (price_arg : Option Nat)
    (predecessor : AccountId) (attached_deposit : Nat) :
    Except String (Contract × List Transfer × PendingPurchase) :=
  let contract_and_token_id := contractTokenKey nft_contract_id token_id
  match lookupA c.market contract_and_token_id with
  | none => .error "Error: Market data does not exist"
  | some market_data =>
    let buyer_id := predecessor
    if buyer_id ≠ market_data.owner_id then
      if market_data.ft_token_id = NEAR then
        if optCheck ft_token_id (fun f => decide (f = market_data.ft_token_id)) then
          if optCheck price_arg (fun p => decide (p = market_data.price)) then
            let price := market_data.price
            if optCheck market_data.is_auction (fun auction => decide (auction = false)) then
              if price ≤ attached_deposit then
                internal_process_purchase c nft_contract_id token_id buyer_id price
              else .error "Error: Attached deposit is less than price"
            else .error "Error: the NFT is on auction"
          else .error "assertion failed: price mismatch"
        else .error "assertion failed: ft_token_id mismatch"
      else .error "Error: NEAR support only"
    else .error "Error: Cannot buy your own sale"

/-! ### Auction engine -/

/-- The timing guard `started_at` of `add_bid`. -/
def afterStart (market_data : MarketData) (current_time : Nat) : Prop :=
  match market_data.started_at with
  | some s => s ≤ current_time
  | none => True

/-- The timing guard `ended_at` of `add_bid`. -/
def beforeEnd (market_data : MarketData) (current_time : Nat) : Prop :=
  match market_data.ended_at with
  | some e => current_time ≤ e
  | none => True

instance (md : MarketData) (t : Nat) : Decidable (afterStart md t) := by
  unfold afterStart; exact match md.started_at with
    | some _ => Nat.decLe _ _
    | none => .isTrue trivial

instance (md : MarketData) (t : Nat) : Decidable (beforeEnd md t) := by
  unfold beforeEnd; exact match md.ended_at with
    | some _ => Nat.decLe _ _
    | none => .isTrue trivial

/-- The storage-quota admission check shared by `add_bid` and `add_offer`. -/
def storageOk (c : Contract) (account_id : AccountId) : Prop :=
  (get_supply_by_owner_id c account_id + 1) * STORAGE_ADD_MARKET_DATA ≤
    (lookupA c.storage_deposits account_id).getD 0

instance (c : Contract) (a : AccountId) : Decidable (storageOk c a) :=
  Nat.decLe _ _

/-- `add_bid`. Note that the source never checks `is_auction` here: the bid
list is read with `unwrap_or(Vec::new())`, so a fixed-price listing (whose
stored bid list is `None`) is bid on exactly like an auction. -/
def add_bid (c : Contract) (nft_contract_id ft_token_id : AccountId)
    (token_id : TokenId) (amount : Nat) (predecessor : AccountId)
    (current_time : Nat) (attached_deposit : Nat) :
    Except String (Contract × List Transfer) :=
  let contract_and_token_id := contractTokenKey nft_contract_id token_id
  match lookupA c.market contract_and_token_id with
  | none => .error "Error: Token id does not exist"
  | some market_data =>
    let bidder_id := predecessor
    if afterStart market_data current_time then
      if beforeEnd market_data current_time then
        if market_data.owner_id ≠ bidder_id then
          if amount ≤ attached_deposit then
            if ft_token_id = NEAR then
              if storageOk c bidder_id then
                let new_bid : Bid := { bidder_id := bidder_id, price := amount }
                let bids := market_data.bids.getD []
                match bids.getLast? with
                | some current_bid =>
                  if current_bid.price < amount then
                    if market_data.price ≤ amount then
                      let refunds :=
                        (bids.filter (fun b => b.bidder_id = bidder_id)).map
                          (fun b => (b.bidder_id, b.price))
                      let kept := bids.filter (fun b => b.bidder_id ≠ bidder_id)
                      let md2 := { market_data with bids := some (kept ++ [new_bid]) }
                      .ok ({ c with
                        market := insertA c.market contract_and_token_id md2 }, refunds)
                    else .error "Error: Cannot pay less than starting price"
                  else .error "Error: Cannot pay less than or equal to current bid price"
                | none =>
                  if market_data.price ≤ amount then
                    let md2 := { market_data with bids := some [new_bid] }
                    .ok ({ c with
                      market := insertA c.market contract_and_token_id md2 }, [])
                  else .error "Error: Cannot pay less than starting price"
              else .error "Insufficient storage paid"
            else .error "Error: Only support NEAR"
          else .error "Error: attached deposit is less than amount"
        else .error "Error: Owner cannot bid their own token"
      else .error "Error: Sale has ended"
    else .error "Error: Sale has not started yet"

/-- `accept_bid`: removes the last bid as winner, refunds the others, stores
the listing back with an emptied bid list, then runs the purchase path
(whose deletion re-reads the now-empty bid list). -/
def accept_bid (c : Contract) (nft_contract_id : AccountId) (token_id : TokenId)
    (predecessor : AccountId) (attached_deposit : Nat) :
    Except String (Contract × List Transfer × PendingPurchase) :=
  if attached_deposit = 1 then
    let contract_and_token_id := contractTokenKey nft_contract_id token_id
    match lookupA c.market contract_and_token_id with
    | none => .error "Error: Token id does not exist"
    | some market_data =>
      if market_data.owner_id = predecessor then
        match market_data.bids with
        | none => .error "panicked at unwrap on a None value"
        | some bids =>
          match bids.getLast? with
          | none => .error "Astro: Cannot accept bid with empty bid"
          | some selected_bid =>
            let refunds := bids.dropLast.map (fun b => (b.bidder_id, b.price))
            let md2 := { market_data with bids := some [] }
            let c1 := { c with market := insertA c.market contract_and_token_id md2 }
            match internal_process_purchase c1 market_data.nft_contract_id token_id
                selected_bid.bidder_id selected_bid.price with
            | .error e => .error e
            | .ok (c2, refunds2, pending) => .ok (c2, refunds ++ refunds2, pending)
      else .error "Error: Only seller can call accept_bid"
  else .error "Requires attached deposit of exactly 1 yoctoNEAR"

/-- `internal_cancel_bid`: removes and refunds every bid of `account_id`. -/
def internal_cancel_bid (c : Contract) (nft_contract_id : AccountId)
    (token_id : TokenId) (account_id : AccountId) :
    Except String (Contract × List Transfer) :=
  let contract_and_token_id := contractTokenKey nft_contract_id token_id
  match lookupA c.market contract_and_token_id with
  | none => .error "Error: Token id does not exist"
  | some market_data =>
    match market_data.bids with
    | none => .error "panicked at unwrap on a None value"
    | some bids =>
      if bids = [] then .error "Error: Bids data does not exist"
      else
        let refunds :=
          (bids.filter (fun b => b.bidder_id = account_id)).map
            (fun b => (b.bidder_id, b.price))
        let kept := bids.filter (fun b => b.bidder_id ≠ account_id)
        let md2 := { market_data with bids := some kept }
        .ok ({ c with market := insertA c.market contract_and_token_id md2 }, refunds)

/-- `cancel_bid` (public): the authorization assert runs once per bid whose
bidder is `account_id`; with no such bid nothing is asserted. -/
def cancel_bid (c : Contract) (nft_contract_id : AccountId) (token_id : TokenId)
    (account_id : AccountId) (predecessor : AccountId) (attached_deposit : Nat) :
    Except String (Contract × List Transfer) :=
  if attached_deposit = 1 then
    let contract_and_token_id := contractTokenKey nft_contract_id token_id
    match lookupA c.market contract_and_token_id with
    | none => .error "Error: Token id does not exist"
    | some market_data =>
      match market_data.bids with
      | none => .error "panicked at unwrap on a None value"
      | some bids =>
        if bids = [] then .error "Error: Bids data does not exist"
        else
          if (∀ b ∈ bids, b.bidder_id = account_id →
              (predecessor = account_id ∨ predecessor = c.owner_id)) then
            internal_cancel_bid c nft_contract_id token_id account_id
          else .error "Error: Bidder or owner only"
  else .error "Requires attached deposit of exactly 1 yoctoNEAR"

/-! ### Offer store -/

/-- `internal_add_offer`. -/
def internal_add_offer (c : Contract) (nft_contract_id : AccountId)
    (token_id : TokenId) (ft_token_id : AccountId) (price : Nat)
    (buyer_id : AccountId) : Contract :=
  let contract_account_id_token_id := make_triple nft_contract_id buyer_id token_id
  let od : OfferData :=
    { buyer_id := buyer_id
      nft_contract_id := nft_contract_id
      token_id := token_id
      ft_token_id := ft_token_id
      price := price }
  { c with
    offers := insertA c.offers contract_account_id_token_id od
    by_owner_id := addToOwnerSet c.by_owner_id buyer_id contract_account_id_token_id }

/-- `internal_delete_offer`. -/
def internal_delete_offer (c : Contract) (nft_contract_id buyer_id : AccountId)
    (token_id : TokenId) : Contract × Option OfferData :=
  let contract_account_id_token_id := make_triple nft_contract_id buyer_id token_id
  match lookupA c.offers contract_account_id_token_id with
  | none => (c, none)
  | some offer =>
    ({ c with
      offers := removeA c.offers contract_account_id_token_id
      by_owner_id :=
        removeFromOwnerSet c.by_owner_id offer.buyer_id contract_account_id_token_id },
      some offer)

/-- `add_offer`: deletes (and refunds) any prior offer of the same buyer for
the same key before checking the storage quota and recording the new one. -/
def add_offer (c : Contract) (nft_contract_id : AccountId) (token_id : TokenId)
    (ft_token_id : AccountId) (price : Nat) (predecessor : AccountId)
    (attached_deposit : Nat) : Except String (Contract × List Transfer) :=
  if nft_contract_id ∈ c.approved_nft_contract_ids then
    if attached_deposit = price then
      if ft_token_id = NEAR then
        let buyer_id := predecessor
        let r := internal_delete_offer c nft_contract_id buyer_id token_id
        let c1 := r.1
        let refunds : List Transfer :=
          match r.2 with
          | some offer => [(buyer_id, offer.price)]
          | none => []
        if storageOk c1 buyer_id then
          .ok (internal_add_offer c1 nft_contract_id token_id ft_token_id price buyer_id,
            refunds)
        else .error "Insufficient storage paid"
      else .error "Error: Only NEAR is supported"
    else .error "Error: Attached deposit != price"
  else .error "Error: offer series for Astro NFT only"

/-- `delete_offer` (public). -/
def delete_offer (c : Contract) (nft_contract_id : AccountId) (token_id : TokenId)
    (predecessor : AccountId) (attached_deposit : Nat) :
    Except String (Contract × List Transfer) :=
  if attached_deposit = 1 then
    let buyer_id := predecessor
    let contract_account_id_token_id := make_triple nft_contract_id buyer_id token_id
    match lookupA c.offers contract_account_id_token_id with
    | none => .error "Error: Offer does not exist"
    | some offer_data =>
      if offer_data.token_id = token_id then
        if offer_data.buyer_id = buyer_id then
          let r := internal_delete_offer c nft_contract_id buyer_id token_id
          match r.2 with
          | none => .error "Error: Offer not found"
          | some _ => .ok (r.1, [(offer_data.buyer_id, offer_data.price)])
        else .error "Error: Caller not offer buyer"
      else .error "assertion failed: token_id mismatch"
  else .error "Requires attached deposit of exactly 1 yoctoNEAR"

/-- `internal_accept_offer`: deletes any direct listing for the asset,
checks and deletes the offer, and schedules settlement with the offer's
escrow. -/
def internal_accept_offer (c : Contract) (nft_contract_id buyer_id : AccountId)
    (token_id : TokenId) (seller_id : AccountId) (_approval_id : Nat)
    (price : Nat) : Except String (Contract × List Transfer × PendingOffer) :=
  let contract_account_id_token_id := make_triple nft_contract_id buyer_id token_id
  let r := internal_delete_market_data c nft_contract_id token_id
  let c1 := r.1
  let bidRefunds := r.2.1
  match lookupA c1.offers contract_account_id_token_id with
  | none => .error "Error: Offer does not exist"
  | some offer_data =>
    if offer_data.token_id = token_id then
      if offer_data.price = price then
        let r2 := internal_delete_offer c1 nft_contract_id buyer_id token_id
        match r2.2 with
        | none => .error "Error: Offer does not exist"
        | some offer_data2 =>
          .ok (r2.1, bidRefunds,
            { seller_id := seller_id, offer_data := offer_data2, token_id := token_id })
      else .error "assertion failed: price mismatch"
    else .error "assertion failed: token_id mismatch"

/-! ### Bid-list invariant and the reachable-state relation -/

/-- The per-listing bid-list invariant: prices strictly increase from first
to last element, and no bidder occurs twice. -/
def BidsInv (bids : List Bid) : Prop :=
  List.Pairwise (fun a b => a.price < b.price) bids ∧
    List.Pairwise (fun a b => a.bidder_id ≠ b.bidder_id) bids

instance (bids : List Bid) : Decidable (BidsInv bids) := by
  unfold BidsInv; infer_instance

/-- The contract-wide invariant: every stored listing's bid list (empty when
the `bids` field is absent) satisfies `BidsInv`. -/
def MarketInv (c : Contract) : Prop :=
  ∀ p ∈ c.market, BidsInv (p.2.bids.getD [])

instance (c : Contract) : Decidable (MarketInv c) := by
  unfold MarketInv; infer_instance

/-- One state-mutating call of the contract, relating the pre-state to the
post-state of a call that completed without aborting. -/
inductive Step : Contract → Contract → Prop where
  | setTreasury (c c2 : Contract) (t p : AccountId) (d : Nat)
      (h : set_treasury c t p d = .ok c2) : Step c c2
  | setTransactionFee (c c2 : Contract) (f : Nat) (p : AccountId) (d : Nat)
      (h : set_transaction_fee c f p d = .ok c2) : Step c c2
  | transferOwnership (c c2 : Contract) (o p : AccountId) (d : Nat)
      (h : transfer_ownership c o p d = .ok c2) : Step c c2
  | addApprovedNft (c c2 : Contract) (ids : List AccountId) (p : AccountId) (d : Nat)
      (h : add_approved_nft_contract_ids c ids p d = .ok c2) : Step c c2
  | storageDeposit (c c2 : Contract) (a : Option AccountId) (p : AccountId) (d : Nat)
      (h : storage_deposit c a p d = .ok c2) : Step c c2
  | storageWithdraw (c c2 : Contract) (p : AccountId) (d : Nat) (t : List Transfer)
      (h : storage_withdraw c p d = .ok (c2, t)) : Step c c2
  | createMarketData (c c2 : Contract) (o : AccountId) (ap : Nat)
      (nft : AccountId) (tok : TokenId) (ft : AccountId) (pr : Nat)
      (sa ea : Option Nat) (ia : Option Bool) (now : Nat)
      (h : internal_add_market_data c o ap nft tok ft pr sa ea ia now = .ok c2) :
      Step c c2
  | updateMarketData (c c2 : Contract) (nft : AccountId) (tok : TokenId)
      (ft : AccountId) (pr : Nat) (p : AccountId) (d : Nat)
      (h : update_market_data c nft tok ft pr p d = .ok c2) : Step c c2
  | deleteMarketData (c c2 : Contract) (nft : AccountId) (tok : TokenId)
      (p : AccountId) (d : Nat) (t : List Transfer)
      (h : delete_market_data c nft tok p d = .ok (c2, t)) : Step c c2
  | buyStep (c c2 : Contract) (nft : AccountId) (tok : TokenId)
      (ft : Option AccountId) (pr : Option Nat) (p : AccountId) (d : Nat)
      (t : List Transfer) (pend : PendingPurchase)
      (h : buy c nft tok ft pr p d = .ok (c2, t, pend)) : Step c c2
  | addBid (c c2 : Contract) (nft ft : AccountId) (tok : TokenId) (amount : Nat)
      (p : AccountId) (now d : Nat) (t : List Transfer)
      (h : add_bid c nft ft tok amount p now d = .ok (c2, t)) : Step c c2
  | acceptBid (c c2 : Contract) (nft : AccountId) (tok : TokenId)
      (p : AccountId) (d : Nat) (t : List Transfer) (pend : PendingPurchase)
      (h : accept_bid c nft tok p d = .ok (c2, t, pend)) : Step c c2
  | cancelBid (c c2 : Contract) (nft : AccountId) (tok : TokenId)
      (a p : AccountId) (d : Nat) (t : List Transfer)
      (h : cancel_bid c nft tok a p d = .ok (c2, t)) : Step c c2
  | addOffer (c c2 : Contract) (nft : AccountId) (tok : TokenId)
      (ft : AccountId) (pr : Nat) (p : AccountId) (d : Nat) (t : List Transfer)
      (h : add_offer c nft tok ft pr p d = .ok (c2, t)) : Step c c2
  | deleteOffer (c c2 : Contract) (nft : AccountId) (tok : TokenId)
      (p : AccountId) (d : Nat) (t : List Transfer)
      (h : delete_offer c nft tok p d = .ok (c2, t)) : Step c c2
  | acceptOffer (c c2 : Contract) (nft b : AccountId) (tok : TokenId)
      (s : AccountId) (ap pr : Nat) (t : List Transfer) (pend : PendingOffer)
      (h : internal_accept_offer c nft b tok s ap pr = .ok (c2, t, pend)) : Step c c2

/-- Reachability from one state through any number of completed calls. -/
def ReachableFrom (c0 c : Contract) : Prop :=
  Relation.ReflTransGen Step c0 c

/-- Number of bindings of a key in an association list. -/
def countKey {α : Type} (l : List (String × α)) (k : String) : Nat :=
  (l.filter (fun p => p.1 = k)).length

/-- The bid-list invariant restated over a raw listing store. -/
def MarketInvL (m : List (String × MarketData)) : Prop :=
  ∀ p ∈ m, BidsInv (p.2.bids.getD [])

instance {e a : Type} [DecidableEq e] [DecidableEq a] : DecidableEq (Except e a) :=
  fun x y =>
    match x, y with
    | .ok v, .ok w =>
      if h : v = w then .isTrue (by rw [h]) else .isFalse (by simp [h])
    | .error v, .error w =>
      if h : v = w then .isTrue (by rw [h]) else .isFalse (by simp [h])
    | .ok _, .error _ => .isFalse (by simp)
    | .error _, .ok _ => .isFalse (by simp)

/-- Whether an `Except` value is a completed (non-aborted) call. -/
def isOkE {ε α : Type} : Except ε α → Bool
  | .ok _ => true
  | .error _ => false

/-! ### Concrete fixtures used to instantiate the theorems -/

/-- An auction listing with starting price 100 and one standing bid of 150. -/
def exC1Md : MarketData :=
  { owner_id := "seller", approval_id := 1, nft_contract_id := "nft"
    token_id := "tok", ft_token_id := "near", price := 100
    bids := some [{ bidder_id := "alice", price := 150 }]
    started_at := none, ended_at := none, is_auction := some true }

/-- A contract holding `exC1Md` as its only listing. -/
def exC1State : Contract :=
  { owner_id := "own", treasury_id := "treasury"
    market := [("nft||tok", exC1Md)]
    approved_ft_token_ids := ["near"], approved_nft_contract_ids := []
    storage_deposits := [], by_owner_id := [("seller", ["nft||tok"])]
    offers := [], transaction_fee := 200 }

/-- The snapshot carried into settlement by `accept_bid` on `exC1State`. -/
def exC1Md2 : MarketData := { exC1Md with bids := some [] }

/-- The contract state after `accept_bid` on `exC1State`. -/
def exC1After : Contract := { exC1State with market := [], by_owner_id := [] }

/-- A contract with storage paid for `"alice"` and no listings. -/
def exC4Base : Contract :=
  { owner_id := "own", treasury_id := "treasury", market := []
    approved_ft_token_ids := ["near"], approved_nft_contract_ids := []
    storage_deposits := [("alice", 8590000000000000000000)]
    by_owner_id := [], offers := [], transaction_fee := 200 }

/-- A fixed-price listing: `is_auction` absent, hence `bids` absent. -/
def exC4Md : MarketData :=
  { owner_id := "seller", approval_id := 1, nft_contract_id := "nft"
    token_id := "tok", ft_token_id := "near", price := 100
    bids := none, started_at := none, ended_at := none, is_auction := none }

/-- `exC4Base` after the fixed-price listing is created. -/
def exC4S1 : Contract :=
  { exC4Base with
    market := [("nft||tok", exC4Md)]
    by_owner_id := [("seller", ["nft||tok"])] }

/-- The fixed-price listing after `add_bid` attached a bid to it. -/
def exC4Md2 : MarketData :=
  { exC4Md with bids := some [{ bidder_id := "alice", price := 150 }] }

/-- `exC4S1` after `add_bid` succeeded on the fixed-price listing. -/
def exC4S2 : Contract := { exC4S1 with market := [("nft||tok", exC4Md2)] }

/-- An auction listing with starting price 100 and an empty bid list. -/
def exC7Md : MarketData :=
  { owner_id := "seller", approval_id := 1, nft_contract_id := "nft"
    token_id := "tok", ft_token_id := "near", price := 100
    bids := some [], started_at := none, ended_at := none, is_auction := some true }

/-- A contract holding `exC7Md`, with storage paid for `"alice"`. -/
def exC7State : Contract :=
  { owner_id := "own", treasury_id := "treasury"
    market := [("nft||tok", exC7Md)]
    approved_ft_token_ids := ["near"], approved_nft_contract_ids := []
    storage_deposits := [("alice", 8590000000000000000000)]
    by_owner_id := [("seller", ["nft||tok"])], offers := [], transaction_fee := 200 }

/-- An auction listing with one bid, by `"anna"`. -/
def exC9Md : MarketData :=
  { owner_id := "seller", approval_id := 1, nft_contract_id := "nft"
    token_id := "tok", ft_token_id := "near", price := 100
    bids := some [{ bidder_id := "anna", price := 110 }]
    started_at := none, ended_at := none, is_auction := some true }

/-- A contract holding `exC9Md` as its only listing. -/
def exC9State : Contract :=
  { owner_id := "own", treasury_id := "treasury"
    market := [("nft||tok", exC9Md)]
    approved_ft_token_ids := ["near"], approved_nft_contract_ids := []
    storage_deposits := [], by_owner_id := [("seller", ["nft||tok"])]
    offers := [], transaction_fee := 200 }

/-- An auction listing with two bids, 110 then 150. -/
def exC6Md : MarketData :=
  { owner_id := "seller", approval_id := 1, nft_contract_id := "nft"
    token_id := "tok", ft_token_id := "near", price := 100
    bids := some [{ bidder_id := "anna", price := 110 },
                  { bidder_id := "bert", price := 150 }]
    started_at := none, ended_at := none, is_auction := some true }

/-- A contract holding `exC6Md` as its only listing. -/
def exC6State : Contract :=
  { owner_id := "own", treasury_id := "treasury"
    market := [("nft||tok", exC6Md)]
    approved_ft_token_ids := ["near"], approved_nft_contract_ids := []
    storage_deposits := [], by_owner_id := [("seller", ["nft||tok"])]
    offers := [], transaction_fee := 200 }

/-- A snapshot listing sold for 10000 native units by `"seller"`. -/
def exSettleMd : MarketData :=
  { owner_id := "seller", approval_id := 1, nft_contract_id := "nft"
    token_id := "tok", ft_token_id := "near", price := 10000
    bids := none, started_at := none, ended_at := none, is_auction := none }

/-- An offer snapshot of price 10000 in native currency. -/
def exSettleOd : OfferData :=
  { buyer_id := "bob", nft_contract_id := "nft", token_id := "tok"
    ft_token_id := "near", price := 10000 }

/-- An accepted payout map whose seller entry (300) is below the fee. -/
def exC2Payout : List (AccountId × Nat) := [("seller", 300), ("roy", 9700)]

/-- An accepted payout map whose seller entry (9950) is above the fee. -/
def exValidPayout : List (AccountId × Nat) := [("seller", 9950), ("roy", 50)]

/-- An accepted payout map whose seller entry (100) is below the 200-unit fee. -/
def exC10Payout : List (AccountId × Nat) := [("seller", 100), ("roy", 9900)]

/-- A contract holding a standing offer by `"bob"` plus storage for him. -/
def exC8State : Contract :=
  { owner_id := "own", treasury_id := "treasury", market := []
    approved_ft_token_ids := ["near"], approved_nft_contract_ids := ["nft"]
    storage_deposits := [("bob", 8590000000000000000000)]
    by_owner_id := [("bob", ["nft||bob||tok"])]
    offers := [("nft||bob||tok",
      { buyer_id := "bob", nft_contract_id := "nft", token_id := "tok"
        ft_token_id := "near", price := 500 })]
    transaction_fee := 200 }

/-- Initial state for the reachability instantiation. -/
def exC5S0 : Contract := Contract.new "own" "treasury" [] []

/-- `exC5S0` after `"alice"` paid one unit of storage. -/
def exC5S1 : Contract :=
  { exC5S0 with storage_deposits := [("alice", 8590000000000000000000)] }

/-- The auction listing created in the reachability instantiation. -/
def exC5Md : MarketData :=
  { owner_id := "seller", approval_id := 1, nft_contract_id := "nft"
    token_id := "tok", ft_token_id := "near", price := 100
    bids := some [], started_at := none, ended_at := none, is_auction := some true }

/-- `exC5S1` after the auction listing is created. -/
def exC5S2 : Contract :=
  { exC5S1 with
    market := [("nft||tok", exC5Md)]
    by_owner_id := [("seller", ["nft||tok"])] }

/-- `exC5S2` after `"alice"` bid 150. -/
def exC5S3 : Contract :=
  { exC5S2 with
    market := [("nft||tok",
      { exC5Md with bids := some [{ bidder_id := "alice", price := 150 }] })] }

/-- `exC7Md` after a bid of 120 by `"alice"`. -/
def exC7MdBid120 : MarketData :=
  { exC7Md with bids := some [{ bidder_id := "alice", price := 120 }] }

/-- `exC7State` after `"alice"` bid 120. -/
def exC7After120 : Contract :=
  { exC7State with market := [("nft||tok", exC7MdBid120)] }

/-- `exC9Md` with its bid list emptied. -/
def exC9MdEmpty : MarketData := { exC9Md with bids := some [] }

/-- `exC9State` after `"anna"` cancelled her own bid. -/
def exC9Cancelled : Contract :=
  { exC9State with market := [("nft||tok", exC9MdEmpty)] }

/-- `exC6Md` with its bid list emptied (the snapshot carried to settlement). -/
def exC6Md2 : MarketData := { exC6Md with bids := some [] }

/-- `exC6State` after `accept_bid` ran. -/
def exC6After : Contract := { exC6State with market := [], by_owner_id := [] }

/-- The standing offer recorded in `exC8State`. -/
def exC8Old : OfferData :=
  { buyer_id := "bob", nft_contract_id := "nft", token_id := "tok"
    ft_token_id := "near", price := 500 }

/-- `exC8State` after `"bob"` replaced his offer with one of price 700. -/
def exC8After : Contract :=
  { exC8State with
    offers := [("nft||bob||tok",
      { buyer_id := "bob", nft_contract_id := "nft", token_id := "tok"
        ft_token_id := "near", price := 700 })] }

/-! ## Lemmas -/

theorem marketInv_eq_invL (c : Contract) : MarketInv c ↔ MarketInvL c.market :=
  Iff.rfl

theorem lookupA_mem {α : Type} {l : List (String × α)} {k : String} {v : α}
    (h : lookupA l k = some v) : (k, v) ∈ l := by
  induction l with
  | nil => simp [lookupA] at h
  | cons p rest ih =>
    by_cases hk : p.1 = k
    · simp only [lookupA, if_pos hk] at h
      cases h
      have hpk : p = (k, p.2) := by cases p; simp_all
      rw [← hpk]
      exact List.mem_cons_self _ _
    · simp only [lookupA, if_neg hk] at h
      exact List.mem_cons_of_mem _ (ih h)

theorem mem_insertA {α : Type} {l : List (String × α)} {k : String} {v : α}
    {p : String × α} (h : p ∈ insertA l k v) : p ∈ l ∨ p = (k, v) := by
  induction l with
  | nil => simp [insertA] at h; right; exact h
  | cons q rest ih =>
    by_cases hk : q.1 = k
    · simp only [insertA, if_pos hk] at h
      rcases List.mem_cons.mp h with h1 | h1
      · right; exact h1
      · left; exact List.mem_cons_of_mem _ h1
    · simp only [insertA, if_neg hk] at h
      rcases List.mem_cons.mp h with h1 | h1
      · left; exact h1 ▸ List.mem_cons_self _ _
      · rcases ih h1 with h2 | h2
        · left; exact List.mem_cons_of_mem _ h2
        · right; exact h2

theorem mem_removeA {α : Type} {l : List (String × α)} {k : String}
    {p : String × α} (h : p ∈ removeA l k) : p ∈ l := by
  induction l with
  | nil => simp [removeA] at h
  | cons q rest ih =>
    by_cases hk : q.1 = k
    · simp only [removeA, if_pos hk] at h
      exact List.mem_cons_of_mem _ (ih h)
    · simp only [removeA, if_neg hk] at h
      rcases List.mem_cons.mp h with h1 | h1
      · exact h1 ▸ List.mem_cons_self _ _
      · exact List.mem_cons_of_mem _ (ih h1)

theorem lookupA_insertA_self {α : Type} (l : List (String × α)) (k : String)
    (v : α) : lookupA (insertA l k v) k = some v := by
  induction l with
  | nil => simp [insertA, lookupA]
  | cons q rest ih =>
    by_cases hk : q.1 = k
    · simp [insertA, if_pos hk, lookupA]
    · simp [insertA, if_neg hk, lookupA, hk, ih]

theorem countKey_removeA {α : Type} (l : List (String × α)) (k : String) :
    countKey (removeA l k) k = 0 := by
  induction l with
  | nil => simp [removeA, countKey]
  | cons q rest ih =>
    by_cases hk : q.1 = k
    · simpa [removeA, if_pos hk] using ih
    · simpa [removeA, if_neg hk, countKey, List.filter_cons, hk] using ih

theorem countKey_insertA_of_zero {α : Type} {l : List (String × α)} {k : String}
    (v : α) (h : countKey l k = 0) : countKey (insertA l k v) k = 1 := by
  induction l with
  | nil => simp [insertA, countKey, List.filter_cons]
  | cons q rest ih =>
    by_cases hk : q.1 = k
    · exfalso
      simp [countKey, List.filter_cons, hk] at h
    · simp only [countKey, List.filter_cons, hk, decide_eq_true_eq,
        if_neg hk] at h ⊢
      simp only [insertA, if_neg hk]
      simp only [countKey, List.filter_cons, hk] at ih ⊢
      simpa using ih h

theorem mem_of_getLast?_eq {α : Type} :
    ∀ {l : List α} {m : α}, l.getLast? = some m → m ∈ l := by
  intro l
  induction l with
  | nil => intro m h; simp [List.getLast?] at h
  | cons a t ih =>
    intro m h
    cases t with
    | nil =>
      simp [List.getLast?] at h
      simp [h]
    | cons b t2 =>
      rw [List.getLast?_cons_cons] at h
      exact List.mem_cons_of_mem _ (ih h)

theorem pairwise_rel_getLast {α : Type} {R : α → α → Prop} :
    ∀ {l : List α} {x m : α}, List.Pairwise R l → x ∈ l →
      l.getLast? = some m → x = m ∨ R x m := by
  intro l
  induction l with
  | nil => intro x m _ hx; simp at hx
  | cons a t ih =>
    intro x m hp hx hm
    cases t with
    | nil =>
      simp [List.getLast?] at hm
      simp at hx
      left; rw [hx, hm]
    | cons b t2 =>
      rw [List.getLast?_cons_cons] at hm
      rcases List.mem_cons.mp hx with rfl | hx2
      · right
        exact (List.pairwise_cons.mp hp).1 m (mem_of_getLast?_eq hm)
      · exact ih (List.pairwise_cons.mp hp).2 hx2 hm

theorem bidsInv_filter (bids : List Bid) (p : Bid → Bool) (h : BidsInv bids) :
    BidsInv (bids.filter p) :=
  ⟨h.1.filter p, h.2.filter p⟩

theorem bidsInv_singleton (b : Bid) : BidsInv [b] := by
  constructor <;> simp

theorem bidsInv_nil : BidsInv [] := by
  constructor <;> simp

theorem bidsInv_append_bid (bids : List Bid) (cb new : Bid)
    (hInv : BidsInv bids) (hlast : bids.getLast? = some cb)
    (hgt : cb.price < new.price) :
    BidsInv (bids.filter (fun b => b.bidder_id ≠ new.bidder_id) ++ [new]) := by
  constructor
  · rw [List.pairwise_append]
    refine ⟨hInv.1.filter _, by simp, ?_⟩
    intro a ha b hb
    rw [List.mem_singleton] at hb
    subst hb
    have hamem := List.mem_of_mem_filter ha
    rcases pairwise_rel_getLast hInv.1 hamem hlast with rfl | hlt
    · exact hgt
    · exact lt_trans hlt hgt
  · rw [List.pairwise_append]
    refine ⟨hInv.2.filter _, by simp, ?_⟩
    intro a ha b hb
    rw [List.mem_singleton] at hb
    subst hb
    have := (List.mem_filter.mp ha).2
    simpa using this

theorem marketInvL_insert {m : List (String × MarketData)} {k : String}
    {md : MarketData} (hi : MarketInvL m) (hmd : BidsInv (md.bids.getD [])) :
    MarketInvL (insertA m k md) := by
  intro p hp
  rcases mem_insertA hp with h | h
  · exact hi p h
  · rw [h]; exact hmd

theorem marketInvL_remove {m : List (String × MarketData)} {k : String}
    (hi : MarketInvL m) : MarketInvL (removeA m k) :=
  fun p hp => hi p (mem_removeA hp)

/-! ### The listing store is untouched by administration, storage and offer calls -/

theorem set_treasury_market {c c2 : Contract} {t p : AccountId} {d : Nat}
    (h : set_treasury c t p d = .ok c2) : c2.market = c.market := by
  unfold set_treasury at h
  repeat' split at h
  all_goals first | (cases h; rfl) | exact Except.noConfusion h

theorem set_transaction_fee_market {c c2 : Contract} {f : Nat} {p : AccountId}
    {d : Nat} (h : set_transaction_fee c f p d = .ok c2) : c2.market = c.market := by
  unfold set_transaction_fee at h
  repeat' split at h
  all_goals first | (cases h; rfl) | exact Except.noConfusion h

theorem transfer_ownership_market {c c2 : Contract} {o p : AccountId} {d : Nat}
    (h : transfer_ownership c o p d = .ok c2) : c2.market = c.market := by
  unfold transfer_ownership at h
  repeat' split at h
  all_goals first | (cases h; rfl) | exact Except.noConfusion h

theorem add_approved_nft_market {c c2 : Contract} {ids : List AccountId}
    {p : AccountId} {d : Nat}
    (h : add_approved_nft_contract_ids c ids p d = .ok c2) : c2.market = c.market := by
  unfold add_approved_nft_contract_ids at h
  repeat' split at h
  all_goals first | (cases h; rfl) | exact Except.noConfusion h

theorem storage_deposit_market {c c2 : Contract} {a : Option AccountId}
    {p : AccountId} {d : Nat}
    (h : storage_deposit c a p d = .ok c2) : c2.market = c.market := by
  unfold storage_deposit at h
  repeat' split at h
  all_goals first | (cases h; rfl) | exact Except.noConfusion h

theorem storage_withdraw_market {c c2 : Contract} {p : AccountId} {d : Nat}
    {t : List Transfer} (h : storage_withdraw c p d = .ok (c2, t)) :
    c2.market = c.market := by
  unfold storage_withdraw at h
  split at h
  · simp only [Except.ok.injEq, Prod.mk.injEq] at h
    obtain ⟨hc, -⟩ := h
    subst hc
    split
    · rfl
    · rfl
  · exact Except.noConfusion h

theorem internal_delete_offer_market (c : Contract) (nft b : AccountId)
    (tok : TokenId) : (internal_delete_offer c nft b tok).1.market = c.market := by
  unfold internal_delete_offer
  cases hk : lookupA c.offers (make_triple nft b tok) <;> simp [hk]

theorem internal_add_offer_market (c : Contract) (nft : AccountId)
    (tok : TokenId) (ft : AccountId) (pr : Nat) (b : AccountId) :
    (internal_add_offer c nft tok ft pr b).market = c.market := rfl

theorem add_offer_market {c c2 : Contract} {nft : AccountId} {tok : TokenId}
    {ft : AccountId} {pr : Nat} {p : AccountId} {d : Nat} {t : List Transfer}
    (h : add_offer c nft tok ft pr p d = .ok (c2, t)) : c2.market = c.market := by
  unfold add_offer at h
  simp only at h
  repeat' split at h
  all_goals first
    | exact Except.noConfusion h
    | (cases h
       rw [internal_add_offer_market, internal_delete_offer_market])

theorem delete_offer_market {c c2 : Contract} {nft : AccountId} {tok : TokenId}
    {p : AccountId} {d : Nat} {t : List Transfer}
    (h : delete_offer c nft tok p d = .ok (c2, t)) : c2.market = c.market := by
  unfold delete_offer at h
  simp only at h
  repeat' split at h
  all_goals first
    | exact Except.noConfusion h
    | (cases h; rw [internal_delete_offer_market])

/-! ### Preservation of the bid-list invariant -/

theorem internal_delete_market_data_inv {c : Contract} (nft : AccountId)
    (tok : TokenId) (hi : MarketInv c) :
    MarketInv (internal_delete_market_data c nft tok).1 := by
  unfold internal_delete_market_data
  simp only
  split
  · exact hi
  · exact marketInvL_remove hi

theorem internal_process_purchase_state {c c2 : Contract} {nft : AccountId}
    {tok : TokenId} {b : AccountId} {pr : Nat} {t : List Transfer}
    {pend : PendingPurchase}
    (h : internal_process_purchase c nft tok b pr = .ok (c2, t, pend)) :
    c2 = (internal_delete_market_data c nft tok).1 := by
  unfold internal_process_purchase at h
  simp only at h
  split at h
  · exact Except.noConfusion h
  · cases h; rfl

theorem internal_add_market_data_inv {c c2 : Contract} {o : AccountId} {ap : Nat}
    {nft : AccountId} {tok : TokenId} {ft : AccountId} {pr : Nat}
    {sa ea : Option Nat} {ia : Option Bool} {now : Nat} (hi : MarketInv c)
    (h : internal_add_market_data c o ap nft tok ft pr sa ea ia now = .ok c2) :
    MarketInv c2 := by
  unfold internal_add_market_data at h
  simp only at h
  repeat' split at h
  all_goals first | exact Except.noConfusion h | skip
  all_goals cases h
  all_goals apply marketInvL_insert hi
  · exact bidsInv_nil
  · exact bidsInv_nil
  · exact bidsInv_nil

theorem update_market_data_inv {c c2 : Contract} {nft : AccountId}
    {tok : TokenId} {ft : AccountId} {pr : Nat} {p : AccountId} {d : Nat}
    (hi : MarketInv c) (h : update_market_data c nft tok ft pr p d = .ok c2) :
    MarketInv c2 := by
  unfold update_market_data at h
  simp only at h
  split at h
  case isTrue =>
    split at h
    case h_1 => exact Except.noConfusion h
    case h_2 md heq =>
      repeat' split at h
      all_goals first | exact Except.noConfusion h | skip
      cases h
      exact marketInvL_insert hi (hi (_, md) (lookupA_mem heq))
  case isFalse => exact Except.noConfusion h

theorem delete_market_data_inv {c c2 : Contract} {nft : AccountId}
    {tok : TokenId} {p : AccountId} {d : Nat} {t : List Transfer}
    (hi : MarketInv c) (h : delete_market_data c nft tok p d = .ok (c2, t)) :
    MarketInv c2 := by
  unfold delete_market_data at h
  simp only at h
  repeat' split at h
  all_goals first | exact Except.noConfusion h | skip
  cases h
  exact internal_delete_market_data_inv _ _ hi

theorem buy_inv {c c2 : Contract} {nft : AccountId} {tok : TokenId}
    {ft : Option AccountId} {pr : Option Nat} {p : AccountId} {d : Nat}
    {t : List Transfer} {pend : PendingPurchase} (hi : MarketInv c)
    (h : buy c nft tok ft pr p d = .ok (c2, t, pend)) : MarketInv c2 := by
  unfold buy at h
  simp only at h
  repeat' split at h
  all_goals first | exact Except.noConfusion h | skip
  rw [internal_process_purchase_state h]
  exact internal_delete_market_data_inv _ _ hi

theorem internal_accept_offer_inv {c c2 : Contract} {nft b : AccountId}
    {tok : TokenId} {s : AccountId} {ap pr : Nat} {t : List Transfer}
    {pend : PendingOffer} (hi : MarketInv c)
    (h : internal_accept_offer c nft b tok s ap pr = .ok (c2, t, pend)) :
    MarketInv c2 := by
  unfold internal_accept_offer at h
  simp only at h
  repeat' split at h
  all_goals first | exact Except.noConfusion h | skip
  cases h
  have h1 : MarketInv (internal_delete_market_data c nft tok).1 :=
    internal_delete_market_data_inv _ _ hi
  rw [marketInv_eq_invL, internal_delete_offer_market]
  exact h1

theorem add_bid_inv {c c2 : Contract} {nft ft : AccountId} {tok : TokenId}
    {amount : Nat} {p : AccountId} {now d : Nat} {t : List Transfer}
    (hi : MarketInv c) (h : add_bid c nft ft tok amount p now d = .ok (c2, t)) :
    MarketInv c2 := by
  unfold add_bid at h
  simp only at h
  split at h
  case h_1 => exact Except.noConfusion h
  case h_2 md heq =>
    have hmd : BidsInv (md.bids.getD []) := hi (_, md) (lookupA_mem heq)
    repeat' split at h
    all_goals first | exact Except.noConfusion h | skip
    case _ cb hlast _ _ =>
      cases h
      apply marketInvL_insert hi
      simpa using bidsInv_append_bid (md.bids.getD []) cb
        { bidder_id := p, price := amount } hmd hlast (by assumption)
    case _ =>
      cases h
      apply marketInvL_insert hi
      simpa using bidsInv_singleton { bidder_id := p, price := amount }

theorem accept_bid_inv {c c2 : Contract} {nft : AccountId} {tok : TokenId}
    {p : AccountId} {d : Nat} {t : List Transfer} {pend : PendingPurchase}
    (hi : MarketInv c) (h : accept_bid c nft tok p d = .ok (c2, t, pend)) :
    MarketInv c2 := by
  unfold accept_bid at h
  simp only at h
  repeat' split at h
  all_goals first | exact Except.noConfusion h | skip
  rename_i hproc
  cases h
  rw [internal_process_purchase_state hproc]
  apply internal_delete_market_data_inv
  exact marketInvL_insert hi bidsInv_nil

theorem internal_cancel_bid_inv {c c2 : Contract} {nft : AccountId}
    {tok : TokenId} {a : AccountId} {t : List Transfer} (hi : MarketInv c)
    (h : internal_cancel_bid c nft tok a = .ok (c2, t)) : MarketInv c2 := by
  unfold internal_cancel_bid at h
  simp only at h
  repeat' split at h
  all_goals first | exact Except.noConfusion h | skip
  rename_i x1 md hlook x2 bids hbids hne
  cases h
  apply marketInvL_insert hi
  have hmd : BidsInv (md.bids.getD []) := hi (_, md) (lookupA_mem hlook)
  rw [hbids] at hmd
  simpa using bidsInv_filter bids _ hmd

theorem cancel_bid_inv {c c2 : Contract} {nft : AccountId} {tok : TokenId}
    {a p : AccountId} {d : Nat} {t : List Transfer} (hi : MarketInv c)
    (h : cancel_bid c nft tok a p d = .ok (c2, t)) : MarketInv c2 := by
  unfold cancel_bid at h
  simp only at h
  repeat' split at h
  all_goals first | exact Except.noConfusion h | skip
  exact internal_cancel_bid_inv hi h

theorem step_preserves_marketInv {c c2 : Contract} (hi : MarketInv c)
    (hs : Step c c2) : MarketInv c2 := by
  have heq : ∀ {c2 : Contract}, c2.market = c.market → MarketInv c2 :=
    fun he p hp => hi p (he ▸ hp)
  cases hs with
  | setTreasury _ _ _ h => exact heq (set_treasury_market h)
  | setTransactionFee _ _ _ h => exact heq (set_transaction_fee_market h)
  | transferOwnership _ _ _ h => exact heq (transfer_ownership_market h)
  | addApprovedNft _ _ _ h => exact heq (add_approved_nft_market h)
  | storageDeposit _ _ _ h => exact heq (storage_deposit_market h)
  | storageWithdraw _ _ _ h => exact heq (storage_withdraw_market h)
  | createMarketData _ _ _ _ _ _ _ _ _ _ h =>
    exact internal_add_market_data_inv hi h
  | updateMarketData _ _ _ _ _ _ h => exact update_market_data_inv hi h
  | deleteMarketData _ _ _ _ _ h => exact delete_market_data_inv hi h
  | buyStep _ _ _ _ _ _ _ _ h => exact buy_inv hi h
  | addBid _ _ _ _ _ _ _ _ h => exact add_bid_inv hi h
  | acceptBid _ _ _ _ _ _ h => exact accept_bid_inv hi h
  | cancelBid _ _ _ _ _ _ h => exact cancel_bid_inv hi h
  | addOffer _ _ _ _ _ _ _ h => exact heq (add_offer_market h)
  | deleteOffer _ _ _ _ _ h => exact heq (delete_offer_market h)
  | acceptOffer _ _ _ _ _ _ _ _ h => exact internal_accept_offer_inv hi h

/-! ### Characterizations of the deletion helpers -/

theorem internal_delete_offer_eq_of_some {c : Contract} {nft b : AccountId}
    {tok : TokenId} {o : OfferData}
    (h : lookupA c.offers (make_triple nft b tok) = some o) :
    internal_delete_offer c nft b tok =
      ({ c with
          offers := removeA c.offers (make_triple nft b tok)
          by_owner_id :=
            removeFromOwnerSet c.by_owner_id o.buyer_id (make_triple nft b tok) },
        some o) := by
  unfold internal_delete_offer
  simp only [h]

theorem internal_delete_market_data_eq_of_some {c : Contract} {nft : AccountId}
    {tok : TokenId} {md : MarketData}
    (h : lookupA c.market (contractTokenKey nft tok) = some md) :
    internal_delete_market_data c nft tok =
      ({ c with
          market := removeA c.market (contractTokenKey nft tok)
          by_owner_id :=
            removeFromOwnerSet c.by_owner_id md.owner_id (contractTokenKey nft tok) },
        (md.bids.getD []).map (fun b => (b.bidder_id, b.price)), some md) := by
  unfold internal_delete_market_data
  simp only [h]

/-! ### Fee arithmetic -/

theorem treasury_fee_le (price bps : Nat) (h : bps < 10000) :
    wrapMul price bps / 10000 ≤ price := by
  apply Nat.lt_succ_iff.mp
  rw [Nat.div_lt_iff_lt_mul (by norm_num : (0:Nat) < 10000)]
  calc wrapMul price bps ≤ price * bps := by
        unfold wrapMul
        exact Nat.mod_le _ _
  _ ≤ price * 10000 := Nat.mul_le_mul_left _ (le_of_lt h)
  _ < (price + 1) * 10000 := by omega

theorem wrapSub_of_le {a b : Nat} (h : b ≤ a) : wrapSub a b = a - b :=
  if_pos h

/-! ### Payout-loop membership lemmas -/

theorem payoutTransfers_mem_of_ne {owner treasury : AccountId} {fee : Nat}
    {m : List (AccountId × Nat)} {r : AccountId} {a : Nat}
    (hmem : (r, a) ∈ m) (hne : r ≠ owner) :
    (r, a) ∈ payoutTransfers owner treasury fee m := by
  induction m with
  | nil => simp at hmem
  | cons q rest ih =>
    rcases List.mem_cons.mp hmem with rfl | hmem2
    · simp only [payoutTransfers, if_neg hne]
      exact List.mem_cons_self _ _
    · cases q with
    | mk q1 q2 =>
      by_cases hq : q1 = owner
      · subst hq
        simp only [payoutTransfers, if_pos rfl]
        exact List.mem_cons_of_mem _ (List.mem_append_right _ (ih hmem2))
      · simp only [payoutTransfers, if_neg hq]
        exact List.mem_cons_of_mem _ (ih hmem2)

theorem payoutTransfers_mem_owner {owner treasury : AccountId} {fee : Nat}
    {m : List (AccountId × Nat)} {a : Nat} (hmem : (owner, a) ∈ m) :
    (owner, wrapSub a fee) ∈ payoutTransfers owner treasury fee m := by
  induction m with
  | nil => simp at hmem
  | cons q rest ih =>
    rcases List.mem_cons.mp hmem with rfl | hmem2
    · simp only [payoutTransfers, if_pos rfl]
      exact List.mem_cons_self _ _
    · cases q with
    | mk q1 q2 =>
      by_cases hq : q1 = owner
      · subst hq
        simp only [payoutTransfers, if_pos rfl]
        exact List.mem_cons_of_mem _ (List.mem_append_right _ (ih hmem2))
      · simp only [payoutTransfers, if_neg hq]
        exact List.mem_cons_of_mem _ (ih hmem2)

theorem payoutTransfers_mem_treasury {owner treasury : AccountId} {fee : Nat}
    {m : List (AccountId × Nat)} {a : Nat} (hmem : (owner, a) ∈ m)
    (hfee : fee ≠ 0) :
    (treasury, fee) ∈ payoutTransfers owner treasury fee m := by
  induction m with
  | nil => simp at hmem
  | cons q rest ih =>
    rcases List.mem_cons.mp hmem with rfl | hmem2
    · simp only [payoutTransfers, if_pos rfl, if_pos hfee]
      exact List.mem_cons_of_mem _ (List.mem_append_left _ (List.mem_singleton_self _))
    · cases q with
    | mk q1 q2 =>
      by_cases hq : q1 = owner
      · subst hq
        simp only [payoutTransfers, if_pos rfl]
        exact List.mem_cons_of_mem _ (List.mem_append_right _ (ih hmem2))
      · simp only [payoutTransfers, if_neg hq]
        exact List.mem_cons_of_mem _ (ih hmem2)

theorem payoutTransfers_cases {owner treasury : AccountId} {fee : Nat}
    {m : List (AccountId × Nat)} :
    ∀ t ∈ payoutTransfers owner treasury fee m,
      (t ∈ m ∧ t.1 ≠ owner) ∨
        (∃ a, (owner, a) ∈ m ∧ t = (owner, wrapSub a fee)) ∨
        t = (treasury, fee) := by
  induction m with
  | nil => intro t ht; simp [payoutTransfers] at ht
  | cons q rest ih =>
    intro t ht
    cases q with
    | mk q1 q2 =>
      by_cases hq : q1 = owner
      · subst hq
        simp only [payoutTransfers, if_pos rfl] at ht
        rcases List.mem_cons.mp ht with rfl | ht2
        · right; left
          exact ⟨q2, List.mem_cons_self _ _, rfl⟩
        · rcases List.mem_append.mp ht2 with ht3 | ht3
          · right; right
            by_cases hfee : fee ≠ 0
            · rw [if_pos hfee] at ht3
              simpa using ht3
            · rw [if_neg hfee] at ht3
              simp at ht3
          · rcases ih t ht3 with ⟨h1, h2⟩ | ⟨a, h1, h2⟩ | h1
            · exact Or.inl ⟨List.mem_cons_of_mem _ h1, h2⟩
            · exact Or.inr (Or.inl ⟨a, List.mem_cons_of_mem _ h1, h2⟩)
            · exact Or.inr (Or.inr h1)
      · simp only [payoutTransfers, if_neg hq] at ht
        rcases List.mem_cons.mp ht with rfl | ht2
        · exact Or.inl ⟨List.mem_cons_self _ _, hq⟩
        · rcases ih t ht2 with ⟨h1, h2⟩ | ⟨a, h1, h2⟩ | h1
          · exact Or.inl ⟨List.mem_cons_of_mem _ h1, h2⟩
          · exact Or.inr (Or.inl ⟨a, List.mem_cons_of_mem _ h1, h2⟩)
          · exact Or.inr (Or.inr h1)

/-! ### Branch characterizations of the resolvers -/

theorem resolve_purchase_valid_branch (bps : Nat) (treasury buyer : AccountId)
    (md : MarketData) (price : Nat) (result : Option Payload)
    {m : List (AccountId × Nat)} (hpay : payoutOption price result = some m)
    (hft : md.ft_token_id = NEAR) :
    resolve_purchase bps treasury buyer md price result =
      (payoutTransfers md.owner_id treasury (wrapMul price bps / 10000) m, price) := by
  unfold resolve_purchase
  rw [hpay]
  simp [hft]

theorem resolve_offer_valid_branch (bps : Nat) (treasury seller : AccountId)
    (od : OfferData) (result : Option Payload) {m : List (AccountId × Nat)}
    (hpay : payoutOption od.price result = some m) (hft : od.ft_token_id = NEAR) :
    resolve_offer bps treasury seller od result =
      (payoutTransfers seller treasury (wrapMul od.price bps / 10000) m,
        od.price) := by
  unfold resolve_offer
  rw [hpay]
  simp [hft]

theorem resolve_purchase_no_royalty (bps : Nat) (treasury buyer : AccountId)
    (md : MarketData) (price : Nat) (pl : Payload)
    (hpay : payoutOption price (some pl) = none) (hft : md.ft_token_id = NEAR) :
    resolve_purchase bps treasury buyer md price (some pl) =
      ((md.owner_id, wrapSub price (wrapMul price bps / 10000)) ::
        (if 0 < wrapMul price bps / 10000 then
          [(treasury, wrapMul price bps / 10000)] else []), price) := by
  unfold resolve_purchase
  rw [hpay]
  simp [hft]

theorem resolve_offer_no_royalty (bps : Nat) (treasury seller : AccountId)
    (od : OfferData) (pl : Payload)
    (hpay : payoutOption od.price (some pl) = none) (hft : od.ft_token_id = NEAR) :
    resolve_offer bps treasury seller od (some pl) =
      ((seller, wrapSub od.price (wrapMul od.price bps / 10000)) ::
        (if 0 < wrapMul od.price bps / 10000 then
          [(treasury, wrapMul od.price bps / 10000)] else []), od.price) := by
  unfold resolve_offer
  rw [hpay]
  simp [hft]

/-! ### Counting refunds -/

theorem count_refund_once {bids : List Bid}
    (hnd : List.Pairwise (fun a b => a.bidder_id ≠ b.bidder_id) bids) :
    ∀ b ∈ bids,
      (bids.map (fun x => (x.bidder_id, x.price))).count (b.bidder_id, b.price) = 1 := by
  induction bids with
  | nil => intro b hb; simp at hb
  | cons a rest ih =>
    intro b hb
    have ha := (List.pairwise_cons.mp hnd).1
    have hrest := (List.pairwise_cons.mp hnd).2
    rcases List.mem_cons.mp hb with rfl | hb2
    · have hzero : (rest.map (fun x => (x.bidder_id, x.price))).count
          (b.bidder_id, b.price) = 0 := by
        rw [List.count_eq_zero]
        intro hmem
        rcases List.mem_map.mp hmem with ⟨y, hy, hyeq⟩
        exact ha y hy (congrArg Prod.fst hyeq).symm
      simp [List.count_cons, hzero]
    · have hne : ¬ ((a.bidder_id, a.price) = (b.bidder_id, b.price)) := by
        intro hcon
        exact ha b hb2 (congrArg Prod.fst hcon)
      simp only [List.map_cons, List.count_cons, beq_iff_eq, if_neg hne,
        Nat.add_zero]
      exact ih hrest b hb2

/-! ### Validation characterization -/

theorem checkedSubFold_some :
    ∀ {l : List Nat} {price r : Nat}, checkedSubFold price l = some r →
      l.sum ≤ price ∧ r = price - l.sum := by
  intro l
  induction l with
  | nil =>
    intro price r h
    simp only [checkedSubFold] at h
    cases h
    simp
  | cons a rest ih =>
    intro price r h
    simp only [checkedSubFold] at h
    split at h
    · have := ih h
      refine ⟨?_, ?_⟩ <;> simp [List.sum_cons] <;> omega
    · exact Option.noConfusion h

theorem payoutOption_some_sum {price : Nat} {result : Option Payload}
    {m : List (AccountId × Nat)} (h : payoutOption price result = some m) :
    (m.map (fun p => p.2)).sum ≤ price ∧
      price - (m.map (fun p => p.2)).sum ≤ 100 := by
  unfold payoutOption at h
  split at h
  · exact Option.noConfusion h
  all_goals try (unfold validatePayout at h)
  case h_4 => exact Option.noConfusion h
  all_goals {
    split at h
    · exact Option.noConfusion h
    · split at h
      · rcases h with ⟨rfl⟩
        rename_i rem hle hfold
        obtain ⟨hsum, hr⟩ := checkedSubFold_some hfold
        subst hr
        exact ⟨hsum, hle⟩
      · exact Option.noConfusion h
  }

/-! ## Claims -/

/-- C1. On the auction path, the snapshot carried into settlement stores the
listing's starting price (100) while the winning price is 150; when the
external transfer fails, `resolve_purchase` refunds `market_data.price`, so
the winning bidder receives 100, not the 150 that was escrowed and carried
into the settlement, although no transfer is made to the treasury. This
evaluates the code at the failing input. -/
theorem c1_failed_transfer_refunds_snapshot_listing_price :
    accept_bid exC1State "nft" "tok" "seller" 1 =
      .ok (exC1After, [],
        { buyer_id := "alice", market_data := exC1Md2, price := 150 }) ∧
    resolve_purchase 200 "treasury" "alice" exC1Md2 150 none =
      ([("alice", 100)], 150) ∧
    (100 : Nat) ≠ 150 := by
  refine ⟨by decide, by decide, by decide⟩

/-- C4. A listing whose `is_auction` flag is absent (a fixed-price sale) is
created with no bid list, yet a single public `add_bid` call succeeds on it
and attaches a bid: the bid list of a fixed-price listing can be populated. -/
theorem c4_add_bid_attaches_bid_to_fixed_price_listing :
    internal_add_market_data exC4Base "seller" 1 "nft" "tok" "near" 100
        none none none 0 = .ok exC4S1 ∧
    lookupA exC4S1.market "nft||tok" = some exC4Md ∧
    exC4Md.is_auction = none ∧ exC4Md.bids = none ∧
    add_bid exC4S1 "nft" "near" "tok" 150 "alice" 0 150 = .ok (exC4S2, []) ∧
    lookupA exC4S2.market "nft||tok" = some exC4Md2 ∧
    exC4Md2.bids = some [{ bidder_id := "alice", price := 150 }] := by
  refine ⟨by decide, by decide, by decide, by decide, by decide, by decide,
    by decide⟩

/-- C3. In the no-royalties branch (external call succeeded, payout
unparseable or out of tolerance), for every price and every
`transaction_fee_bps < 10000`, the seller is paid exactly `price - fee`, the
treasury exactly `fee` (when non-zero), and `fee + net_seller = price`, on
both the purchase and the offer resolution paths. -/
theorem c3_no_royalty_fee_plus_seller_equals_price
    (bps : Nat) (treasury buyer seller : AccountId) (md : MarketData)
    (price : Nat) (od : OfferData) (pl pl2 : Payload)
    (hbps : bps < 10000)
    (hft : md.ft_token_id = NEAR) (hoft : od.ft_token_id = NEAR)
    (hpl : payoutOption price (some pl) = none)
    (hpl2 : payoutOption od.price (some pl2) = none) :
    ((resolve_purchase bps treasury buyer md price (some pl)).1 =
        (md.owner_id, price - wrapMul price bps / 10000) ::
          (if 0 < wrapMul price bps / 10000 then
            [(treasury, wrapMul price bps / 10000)] else []) ∧
      (price - wrapMul price bps / 10000) + wrapMul price bps / 10000 = price) ∧
    ((resolve_offer bps treasury seller od (some pl2)).1 =
        (seller, od.price - wrapMul od.price bps / 10000) ::
          (if 0 < wrapMul od.price bps / 10000 then
            [(treasury, wrapMul od.price bps / 10000)] else []) ∧
      (od.price - wrapMul od.price bps / 10000) + wrapMul od.price bps / 10000 =
        od.price) := by
  have h1 := treasury_fee_le price bps hbps
  have h2 := treasury_fee_le od.price bps hbps
  refine ⟨⟨?_, Nat.sub_add_cancel h1⟩, ⟨?_, Nat.sub_add_cancel h2⟩⟩
  · rw [resolve_purchase_no_royalty bps treasury buyer md price pl hpl hft,
      wrapSub_of_le h1]
  · rw [resolve_offer_no_royalty bps treasury seller od pl2 hpl2 hoft,
      wrapSub_of_le h2]

/-- Witness for C3: fee 200 bps on a garbage payout; purchase price 1000
splits as 980 to the seller and 20 to the treasury; offer price 10000 splits
as 9800 and 200. -/
theorem c3_witness_fee_split :
    ((resolve_purchase 200 "treasury" "bob" exSettleMd 1000
        (some .garbage)).1 =
        ("seller", 980) :: [("treasury", 20)] ∧
      (980 : Nat) + 20 = 1000) ∧
    ((resolve_offer 200 "treasury" "seller" exSettleOd (some .garbage)).1 =
        ("seller", 9800) :: [("treasury", 200)] ∧
      (9800 : Nat) + 200 = 10000) :=
  c3_no_royalty_fee_plus_seller_equals_price 200 "treasury" "bob" "seller"
    exSettleMd 1000 exSettleOd .garbage .garbage (by decide) (by decide)
    (by decide) rfl rfl

/-- C7 counterexample: on an auction listing with starting price 100 and no
bids, a bid of exactly 100 (equal to the starting price) is accepted, while
the claim states it must be rejected. -/
theorem c7_counterexample_bid_equal_to_start_accepted :
    lookupA exC7State.market "nft||tok" = some exC7Md ∧
    exC7Md.price = 100 ∧
    isOkE (add_bid exC7State "nft" "near" "tok" 100 "alice" 0 100) = true := by
  refine ⟨by decide, by decide, by decide⟩

/-- C7 amended: a completed `add_bid` call implies the amount is at least
(not strictly above) the listing's starting price, and strictly exceeds the
current highest (last) bid whenever one exists; a bid exactly equal to the
starting price is accepted when no higher bid stands. -/
theorem c7_amended_bid_at_least_start_strictly_above_last
    (c c2 : Contract) (nft ft : AccountId) (tok : TokenId) (amount : Nat)
    (p : AccountId) (now d : Nat) (t : List Transfer) (md : MarketData)
    (hmd : lookupA c.market (contractTokenKey nft tok) = some md)
    (h : add_bid c nft ft tok amount p now d = .ok (c2, t)) :
    md.price ≤ amount ∧
      ∀ cb, (md.bids.getD []).getLast? = some cb → cb.price < amount := by
  unfold add_bid at h
  simp only [hmd] at h
  repeat' split at h
  all_goals first | exact Except.noConfusion h | skip
  · rename_i x cb hlast hgt hsp
    refine ⟨hsp, ?_⟩
    intro cb2 hcb2
    rw [hlast] at hcb2
    cases hcb2
    exact hgt
  · rename_i x hnone hsp
    refine ⟨hsp, ?_⟩
    intro cb2 hcb2
    rw [hnone] at hcb2
    exact Option.noConfusion hcb2

/-- Witness for C7 amended: a successful bid of 120 on the 100-priced
auction implies 100 ≤ 120. -/
theorem c7_amended_witness : exC7Md.price ≤ 120 :=
  (c7_amended_bid_at_least_start_strictly_above_last exC7State exC7After120
    "nft" "near" "tok" 120 "alice" 0 120 [] exC7Md (by decide) (by decide)).1

/-- C9 counterexample: the listing has a non-empty bid list (one bid by
`"anna"`); `"carol"`, who is neither the target bidder `"bob"` nor the
contract owner `"own"`, calls `cancel_bid` for target `"bob"` and the call
completes instead of aborting (the authorization assert only runs for bids
owned by the target, and `"bob"` has none). -/
theorem c9_counterexample_third_party_cancel_succeeds :
    ("carol" : AccountId) ≠ "bob" ∧
    ("carol" : AccountId) ≠ exC9State.owner_id ∧
    lookupA exC9State.market "nft||tok" = some exC9Md ∧
    exC9Md.bids = some [{ bidder_id := "anna", price := 110 }] ∧
    cancel_bid exC9State "nft" "tok" "bob" "carol" 1 =
      .ok (exC9State, []) := by
  refine ⟨by decide, by decide, by decide, by decide, by decide⟩

/-- C9 amended: a completed `cancel_bid` call implies the caller is the
target bidder or the contract owner whenever the target owns at least one
bid in the list; every bid of the target is refunded and removed, and the
stored list keeps exactly the other bids (when the target owns no bid, any
caller may complete the call as a no-op). -/
theorem c9_amended_cancel_bid_auth_and_refund
    (c c2 : Contract) (nft : AccountId) (tok : TokenId)
    (target p : AccountId) (t : List Transfer) (md : MarketData)
    (bids : List Bid)
    (hmd : lookupA c.market (contractTokenKey nft tok) = some md)
    (hbids : md.bids = some bids)
    (h : cancel_bid c nft tok target p 1 = .ok (c2, t)) :
    ((∃ b ∈ bids, b.bidder_id = target) → p = target ∨ p = c.owner_id) ∧
    t = (bids.filter (fun b => b.bidder_id = target)).map
        (fun b => (b.bidder_id, b.price)) ∧
    lookupA c2.market (contractTokenKey nft tok) =
      some { md with bids := some (bids.filter (fun b => b.bidder_id ≠ target)) } := by
  unfold cancel_bid at h
  simp only [hmd, hbids] at h
  repeat' split at h
  all_goals first | exact Except.noConfusion h | skip
  rename_i hdep hne hauth
  unfold internal_cancel_bid at h
  simp only [hmd, hbids] at h
  rw [if_neg hne] at h
  simp only [Except.ok.injEq, Prod.mk.injEq] at h
  obtain ⟨hc, ht⟩ := h
  subst hc
  subst ht
  refine ⟨?_, rfl, lookupA_insertA_self _ _ _⟩
  rintro ⟨b, hb, hbid⟩
  exact hauth b hb hbid

/-- Witness for C9 amended: `"anna"` cancels her own bid; the refund list is
exactly her bid. -/
theorem c9_amended_witness :
    ([("anna", 110)] : List Transfer) =
      (([{ bidder_id := "anna", price := 110 }] : List Bid).filter
        (fun b => b.bidder_id = "anna")).map (fun b => (b.bidder_id, b.price)) :=
  (c9_amended_cancel_bid_auth_and_refund exC9State exC9Cancelled "nft" "tok"
    "anna" "anna" [("anna", 110)] exC9Md
    [{ bidder_id := "anna", price := 110 }] (by decide) (by decide)
    (by decide)).2.1

/-- C2 counterexample: price 10000, fee 500 bps (fee = 500), accepted payout
listing the seller at 300 (sum 10000, in tolerance). The seller's transfer
is the wrapped `u128` value `2 ^ 128 - 200`, which is not the listed amount
minus the fee (`x + fee = listed` fails), so the claim as stated is false. -/
theorem c2_counterexample_seller_paid_wrapped_amount_below_fee :
    payoutOption 10000 (some (.bare exC2Payout)) = some exC2Payout ∧
    ("seller", 300) ∈ exC2Payout ∧
    wrapMul 10000 500 / 10000 = 500 ∧
    resolve_purchase 500 "treasury" "bob" exSettleMd 10000
        (some (.bare exC2Payout)) =
      ([("seller", 2 ^ 128 - 200), ("treasury", 500), ("roy", 9700)], 10000) ∧
    (2 ^ 128 - 200) + 500 ≠ 300 := by
  refine ⟨by decide, by decide, by decide, by decide, by decide⟩

/-- C2 amended: for an accepted payout (amounts sum to at most the price and
within 100 units of it), every recipient other than the seller is
transferred its listed amount; the seller recipient, provided its listed
amount is at least the fee, is transferred the listed amount minus exactly
`fee = price * transaction_fee_bps / 10000`, with the fee forwarded to the
treasury when non-zero; and every transfer of the loop is of one of these
three shapes — on both resolution paths. -/
theorem c2_amended_valid_payout_payment_amounts
    (bps : Nat) (treasury buyer seller : AccountId) (md : MarketData)
    (price : Nat) (od : OfferData) (result result2 : Option Payload)
    (m m2 : List (AccountId × Nat))
    (hpay : payoutOption price result = some m)
    (hft : md.ft_token_id = NEAR)
    (hpay2 : payoutOption od.price result2 = some m2)
    (hoft : od.ft_token_id = NEAR) :
    ((m.map (fun q => q.2)).sum ≤ price ∧
      price - (m.map (fun q => q.2)).sum ≤ 100) ∧
    (∀ r a, (r, a) ∈ m → r ≠ md.owner_id →
      (r, a) ∈ (resolve_purchase bps treasury buyer md price result).1) ∧
    (∀ a, (md.owner_id, a) ∈ m → wrapMul price bps / 10000 ≤ a →
      (md.owner_id, a - wrapMul price bps / 10000) ∈
        (resolve_purchase bps treasury buyer md price result).1 ∧
      (wrapMul price bps / 10000 ≠ 0 →
        (treasury, wrapMul price bps / 10000) ∈
          (resolve_purchase bps treasury buyer md price result).1)) ∧
    (∀ x ∈ (resolve_purchase bps treasury buyer md price result).1,
      (x ∈ m ∧ x.1 ≠ md.owner_id) ∨
        (∃ a, (md.owner_id, a) ∈ m ∧
          x = (md.owner_id, wrapSub a (wrapMul price bps / 10000))) ∨
        x = (treasury, wrapMul price bps / 10000)) ∧
    ((m2.map (fun q => q.2)).sum ≤ od.price ∧
      od.price - (m2.map (fun q => q.2)).sum ≤ 100) ∧
    (∀ r a, (r, a) ∈ m2 → r ≠ seller →
      (r, a) ∈ (resolve_offer bps treasury seller od result2).1) ∧
    (∀ a, (seller, a) ∈ m2 → wrapMul od.price bps / 10000 ≤ a →
      (seller, a - wrapMul od.price bps / 10000) ∈
        (resolve_offer bps treasury seller od result2).1 ∧
      (wrapMul od.price bps / 10000 ≠ 0 →
        (treasury, wrapMul od.price bps / 10000) ∈
          (resolve_offer bps treasury seller od result2).1)) ∧
    (∀ x ∈ (resolve_offer bps treasury seller od result2).1,
      (x ∈ m2 ∧ x.1 ≠ seller) ∨
        (∃ a, (seller, a) ∈ m2 ∧
          x = (seller, wrapSub a (wrapMul od.price bps / 10000))) ∨
        x = (treasury, wrapMul od.price bps / 10000)) := by
  rw [resolve_purchase_valid_branch bps treasury buyer md price result hpay hft,
    resolve_offer_valid_branch bps treasury seller od result2 hpay2 hoft]
  refine ⟨payoutOption_some_sum hpay, ?_, ?_, ?_,
    payoutOption_some_sum hpay2, ?_, ?_, ?_⟩
  · intro r a hmem hne
    exact payoutTransfers_mem_of_ne hmem hne
  · intro a hmem hfee
    refine ⟨?_, fun hfz => payoutTransfers_mem_treasury hmem hfz⟩
    rw [← wrapSub_of_le hfee]
    exact payoutTransfers_mem_owner hmem
  · exact payoutTransfers_cases
  · intro r a hmem hne
    exact payoutTransfers_mem_of_ne hmem hne
  · intro a hmem hfee
    refine ⟨?_, fun hfz => payoutTransfers_mem_treasury hmem hfz⟩
    rw [← wrapSub_of_le hfee]
    exact payoutTransfers_mem_owner hmem
  · exact payoutTransfers_cases

/-- Witness for C2 amended: payout `{seller: 9950, roy: 50}` for price
10000 at 200 bps: roy is paid 50, the seller 9750, the treasury 200. -/
theorem c2_amended_witness :
    ("roy", 50) ∈ (resolve_purchase 200 "treasury" "bob" exSettleMd 10000
        (some (.bare exValidPayout))).1 ∧
    ("seller", 9750) ∈ (resolve_purchase 200 "treasury" "bob" exSettleMd 10000
        (some (.bare exValidPayout))).1 ∧
    ("treasury", 200) ∈ (resolve_purchase 200 "treasury" "bob" exSettleMd 10000
        (some (.bare exValidPayout))).1 := by
  have h := c2_amended_valid_payout_payment_amounts 200 "treasury" "bob"
    "seller" exSettleMd 10000 exSettleOd (some (.bare exValidPayout))
    (some (.bare exValidPayout)) exValidPayout exValidPayout (by decide)
    (by decide) (by decide) (by decide)
  have hseller := h.2.2.1 9950 (by decide) (by decide)
  exact ⟨h.2.1 "roy" 50 (by decide) (by decide), hseller.1,
    hseller.2 (by decide)⟩

/-- C10. In the valid-payout branch the seller's transfer is computed by
unguarded `u128` subtraction `amount - fee`. Whenever the seller's listed
payout amount is at least the fee, the subtraction does not wrap: the
transferred value is the true difference (adding the fee back recovers the
listed amount), on both resolution paths. And there exists an accepted
payout whose seller entry (100) is below the fee (200), on which the
subtraction does wrap (underflow). -/
theorem c10_seller_subtraction_underflow_guard
    (bps : Nat) (treasury buyer seller : AccountId) (md : MarketData)
    (price : Nat) (od : OfferData) (result result2 : Option Payload)
    (m m2 : List (AccountId × Nat)) (a a2 : Nat)
    (hpay : payoutOption price result = some m) (hft : md.ft_token_id = NEAR)
    (hmem : (md.owner_id, a) ∈ m) (hfee : wrapMul price bps / 10000 ≤ a)
    (hpay2 : payoutOption od.price result2 = some m2)
    (hoft : od.ft_token_id = NEAR) (hmem2 : (seller, a2) ∈ m2)
    (hfee2 : wrapMul od.price bps / 10000 ≤ a2) :
    (wrapSub a (wrapMul price bps / 10000) = a - wrapMul price bps / 10000 ∧
      (md.owner_id, a - wrapMul price bps / 10000) ∈
        (resolve_purchase bps treasury buyer md price result).1 ∧
      (a - wrapMul price bps / 10000) + wrapMul price bps / 10000 = a) ∧
    (wrapSub a2 (wrapMul od.price bps / 10000) =
        a2 - wrapMul od.price bps / 10000 ∧
      (seller, a2 - wrapMul od.price bps / 10000) ∈
        (resolve_offer bps treasury seller od result2).1 ∧
      (a2 - wrapMul od.price bps / 10000) + wrapMul od.price bps / 10000 = a2) ∧
    (payoutOption 10000 (some (.bare exC10Payout)) = some exC10Payout ∧
      ("seller", 100) ∈ exC10Payout ∧
      (100 : Nat) < wrapMul 10000 200 / 10000 ∧
      wrapSub 100 (wrapMul 10000 200 / 10000) +
        wrapMul 10000 200 / 10000 ≠ 100) := by
  rw [resolve_purchase_valid_branch bps treasury buyer md price result hpay hft,
    resolve_offer_valid_branch bps treasury seller od result2 hpay2 hoft]
  refine ⟨⟨wrapSub_of_le hfee, ?_, Nat.sub_add_cancel hfee⟩,
    ⟨wrapSub_of_le hfee2, ?_, Nat.sub_add_cancel hfee2⟩,
    by decide, by decide, by decide, by decide⟩
  · rw [← wrapSub_of_le hfee]
    exact payoutTransfers_mem_owner hmem
  · rw [← wrapSub_of_le hfee2]
    exact payoutTransfers_mem_owner hmem2

/-- Witness for C10: the seller entry 9950 with fee 200 yields a transfer of
9750, and 9750 + 200 = 9950 (no underflow). -/
theorem c10_witness_no_underflow :
    wrapSub 9950 (wrapMul 10000 200 / 10000) =
      9950 - wrapMul 10000 200 / 10000 ∧
    ("seller", 9950 - wrapMul 10000 200 / 10000) ∈
      (resolve_purchase 200 "treasury" "bob" exSettleMd 10000
        (some (.bare exValidPayout))).1 ∧
    (9950 - wrapMul 10000 200 / 10000) + wrapMul 10000 200 / 10000 = 9950 :=
  (c10_seller_subtraction_underflow_guard 200 "treasury" "bob" "seller"
    exSettleMd 10000 exSettleOd (some (.bare exValidPayout))
    (some (.bare exValidPayout)) exValidPayout exValidPayout 9950 9950
    (by decide) (by decide) (by decide) (by decide) (by decide) (by decide)
    (by decide) (by decide)).1

/-- C8. When a buyer who already has a standing offer for the same
(registry, buyer, asset) key completes `add_offer`, the refund of the prior
escrow is the only transfer (emitted by the deletion that runs before the
new offer is recorded), and afterwards exactly one offer is stored for the
key — the new one. -/
theorem c8_add_offer_replaces_prior_offer_and_refunds
    (c c2 : Contract) (nft : AccountId) (tok : TokenId) (ft : AccountId)
    (pr d : Nat) (buyer : AccountId) (t : List Transfer) (old : OfferData)
    (hold : lookupA c.offers (make_triple nft buyer tok) = some old)
    (h : add_offer c nft tok ft pr buyer d = .ok (c2, t)) :
    t = [(buyer, old.price)] ∧
    countKey c2.offers (make_triple nft buyer tok) = 1 ∧
    lookupA c2.offers (make_triple nft buyer tok) =
      some { buyer_id := buyer, nft_contract_id := nft, token_id := tok
             ft_token_id := ft, price := pr } := by
  unfold add_offer at h
  simp only at h
  rw [internal_delete_offer_eq_of_some hold] at h
  simp only at h
  repeat' split at h
  all_goals first | exact Except.noConfusion h | skip
  unfold internal_add_offer at h
  simp only [Except.ok.injEq, Prod.mk.injEq] at h
  obtain ⟨hc, ht⟩ := h
  subst hc
  subst ht
  exact ⟨rfl, countKey_insertA_of_zero _ (countKey_removeA _ _),
    lookupA_insertA_self _ _ _⟩

/-- Witness for C8: `"bob"` replaces his 500-escrow offer by a 700 one; the
key holds exactly one offer afterwards. -/
theorem c8_witness_replace_offer :
    countKey exC8After.offers "nft||bob||tok" = 1 :=
  (c8_add_offer_replaces_prior_offer_and_refunds exC8State exC8After "nft"
    "tok" "near" 700 700 "bob" [("bob", 500)] exC8Old (by decide)
    (by decide)).2.1

/-- C5. Every contract state reachable from a freshly constructed contract
through completed public calls satisfies `MarketInv`: every stored listing's
bid list is strictly increasing in price from first to last and holds at
most one bid per bidder. -/
theorem c5_reachable_states_satisfy_bid_list_invariant
    (o t : AccountId) (fts nfts : List AccountId) (c : Contract)
    (h : ReachableFrom (Contract.new o t fts nfts) c) : MarketInv c := by
  unfold ReachableFrom at h
  induction h with
  | refl =>
    intro p hp
    simp [Contract.new] at hp
  | tail hsteps hstep ih => exact step_preserves_marketInv ih hstep

/-- Witness for C5: deposit storage, create an auction, bid 150 — the
resulting concrete state satisfies the bid-list invariant. -/
theorem c5_witness_reachable_auction : MarketInv exC5S3 :=
  c5_reachable_states_satisfy_bid_list_invariant "own" "treasury" [] [] exC5S3
    (Relation.ReflTransGen.tail
      (Relation.ReflTransGen.tail
        (Relation.ReflTransGen.tail Relation.ReflTransGen.refl
          (Step.storageDeposit exC5S0 exC5S1 (some "alice") "alice"
            8590000000000000000000 (by decide)))
        (Step.createMarketData exC5S1 exC5S2 "seller" 1 "nft" "tok" "near"
          100 none none (some true) 0 (by decide)))
      (Step.addBid exC5S2 exC5S3 "nft" "near" "tok" 150 "alice" 0 150 []
        (by decide)))

/-- C6. A completed `accept_bid` on a listing whose bid list satisfies the
invariant selects the last bid, which has the maximum price; the transfers
of the call are exactly one refund per non-selected bid (the listing
deletion inside the purchase path re-reads the emptied bid list, so no bid
is refunded twice). -/
theorem c6_accept_bid_selects_max_price_and_refunds_others_once
    (c c2 : Contract) (nft : AccountId) (tok : TokenId) (p : AccountId)
    (t : List Transfer) (pend : PendingPurchase) (md : MarketData)
    (bids : List Bid)
    (hmd : lookupA c.market (contractTokenKey nft tok) = some md)
    (hkey : md.nft_contract_id = nft)
    (hbids : md.bids = some bids)
    (hinv : BidsInv bids)
    (h : accept_bid c nft tok p 1 = .ok (c2, t, pend)) :
    (∃ w, bids.getLast? = some w ∧ pend.buyer_id = w.bidder_id ∧
      pend.price = w.price ∧ ∀ b ∈ bids, b.price ≤ w.price) ∧
    t = bids.dropLast.map (fun b => (b.bidder_id, b.price)) ∧
    ∀ b ∈ bids.dropLast, t.count (b.bidder_id, b.price) = 1 := by
  subst hkey
  unfold accept_bid at h
  simp only [hmd, hbids] at h
  repeat' split at h
  all_goals first | exact Except.noConfusion h | skip
  rename_i hdep howner xo sel hlast xe c2x t2 pend2 hproc
  unfold internal_process_purchase at hproc
  rw [internal_delete_market_data_eq_of_some
    (lookupA_insertA_self c.market (contractTokenKey md.nft_contract_id tok)
      { md with bids := some [] })] at hproc
  simp only [Except.ok.injEq, Prod.mk.injEq, Option.getD_some, List.map_nil]
    at hproc
  obtain ⟨rfl, rfl, rfl⟩ := hproc
  simp only [Except.ok.injEq, Prod.mk.injEq] at h
  obtain ⟨rfl, rfl, rfl⟩ := h
  refine ⟨⟨sel, hlast, rfl, rfl, ?_⟩, by simp, ?_⟩
  · intro b hb
    rcases pairwise_rel_getLast hinv.1 hb hlast with rfl | hlt
    · exact le_refl _
    · exact le_of_lt hlt
  · intro b hb
    rw [List.append_nil]
    exact count_refund_once (hinv.2.sublist (List.dropLast_sublist _)) b hb

/-- Witness for C6: on the two-bid auction the refunds are exactly one
transfer, for the non-winning bid. -/
theorem c6_witness_two_bids :
    ([("anna", 110)] : List Transfer) =
      ([{ bidder_id := "anna", price := 110 },
        { bidder_id := "bert", price := 150 }] : List Bid).dropLast.map
        (fun b => (b.bidder_id, b.price)) :=
  (c6_accept_bid_selects_max_price_and_refunds_others_once exC6State exC6After
    "nft" "tok" "seller" [("anna", 110)]
    { buyer_id := "bert", market_data := exC6Md2, price := 150 } exC6Md
    [{ bidder_id := "anna", price := 110 },
     { bidder_id := "bert", price := 150 }]
    (by decide) (by decide) (by decide) (by decide) (by decide)).2.1

end AstroMarket
